import Mathlib

/-!
Verification of the HTTP/1.1 client core (growable buffer, protocol engine,
request-validation facade) of the `LinkedInArticles` repository, article 0004.
The C engine (`src/c/http1_protocol.c`, `src/c/httpc.c`) and the C++ engine
(`include/httpcpp/http1_protocol.hpp`, `include/httpcpp/httpcpp.hpp`) are
shallowly embedded as executable Lean functions over `List Char` byte
sequences; the blocking transport is embedded as a script of chunks followed
by end-of-stream, and `realloc` as an allocation oracle yielding fresh base
addresses or failure.
-/

namespace HttpClientModel

/-- The characters `strtok_r` treats as delimiters when called with `"\r\n"`. -/
def isCRLFDelim (c : Char) : Bool := c == '\r' || c == '\n'

/-- The two-byte line terminator. -/
def crlf : List Char := ['\r', '\n']

/-- The four-byte header terminator searched for by `strstr`/`std::search`. -/
def headerSep : List Char := ['\r', '\n', '\r', '\n']

/-- First index at which `pat` occurs as a contiguous sub-sequence of `s`
(the behaviour of `strstr` and `std::search`, as an index). -/
def findSubIdx (pat : List Char) : List Char → Option Nat
  | [] => if pat.isEmpty then some 0 else none
  | c :: rest =>
    if pat.isPrefixOf (c :: rest) then some 0
    else (findSubIdx pat rest).map (· + 1)

theorem findSubIdx_bound {pat s : List Char} {i : Nat}
    (h : findSubIdx pat s = some i) : i + pat.length ≤ s.length := by
  induction s generalizing i with
  | nil =>
    unfold findSubIdx at h
    by_cases hp : pat.isEmpty
    · simp [hp] at h
      subst h
      simp [List.isEmpty_iff.mp hp]
    · simp [hp] at h
  | cons c rest ih =>
    unfold findSubIdx at h
    by_cases hp : pat.isPrefixOf (c :: rest)
    · simp [hp] at h
      subst h
      simpa using (List.isPrefixOf_iff_prefix.mp hp).length_le
    · simp [hp] at h
      obtain ⟨j, hj, rfl⟩ := h
      have := ih hj
      simp only [List.length_cons]
      omega

theorem length_dropWhile_le (p : Char → Bool) (l : List Char) :
    (l.dropWhile p).length ≤ l.length := by
  induction l with
  | nil => simp
  | cons a l ih =>
    by_cases h : p a
    · simp [List.dropWhile_cons, h]
      omega
    · simp [List.dropWhile_cons, h]

/-- Split a byte sequence at every occurrence of `"\r\n"`, keeping the
segments between occurrences (used to model the C++ header-line walk):
repeatedly cut at the leftmost `"\r\n"`. -/
def splitCRLF : List Char → List (List Char)
  | [] => [[]]
  | '\r' :: '\n' :: rest => [] :: splitCRLF rest
  | c :: rest =>
    match splitCRLF rest with
    | [] => [[c]]
    | l :: ls => (c :: l) :: ls

/-- The accumulator walk behind `strtokTokens`. -/
def strtokAux : List Char → List Char → List (List Char)
  | [], cur => if cur.isEmpty then [] else [cur.reverse]
  | c :: rest, cur =>
    if isCRLFDelim c then
      if cur.isEmpty then strtokAux rest [] else cur.reverse :: strtokAux rest []
    else strtokAux rest (c :: cur)

/-- `strtok_r(s, "\r\n", ...)` token stream: maximal runs of non-delimiter
characters, with runs of delimiters skipped. -/
def strtokTokens (s : List Char) : List (List Char) := strtokAux s []

/-- ASCII case-insensitive equality of byte strings (`strcasecmp == 0`). -/
def strCaseEq (a b : List Char) : Bool :=
  a.map Char.toLower == b.map Char.toLower

/-- Accumulate decimal digits (the digit-consuming core of `atoi` and
`std::from_chars`). -/
def digitsVal (s : List Char) : Nat :=
  s.foldl (fun a c => a * 10 + (c.toNat - 48)) 0

/-- `std::from_chars` into an unsigned integer: consume leading decimal
digits, failing when there are none.  (Idealization: for a numeral that
overflows the target integer type `std::from_chars` reports
`result_out_of_range` and the C++ caller leaves `content_length_` unset,
while this model returns the unbounded value; no evaluated run below
carries such a numeral.) -/
def fromCharsNat (s : List Char) : Option Nat :=
  let ds := s.takeWhile Char.isDigit
  if ds.isEmpty then none else some (digitsVal ds)

/-- Characters `isspace` accepts in the C locale. -/
def isSpaceChar (c : Char) : Bool :=
  c == ' ' || c == '\t' || c == '\n' || c == '\x0b' || c == '\x0c' || c == '\r'

/-- The C `atoi`: skip whitespace, optional sign, then decimal digits
(zero when no digits follow). -/
def atoiModel (s : List Char) : Int :=
  let s1 := s.dropWhile isSpaceChar
  match s1 with
  | '-' :: r => -(digitsVal (r.takeWhile Char.isDigit) : Int)
  | '+' :: r => (digitsVal (r.takeWhile Char.isDigit) : Int)
  | _ => (digitsVal (s1.takeWhile Char.isDigit) : Int)

/-! ## C implementation model (`src/c/http1_protocol.c`, `src/c/httpc.c`)

Errors are `(type, code)` pairs exactly as in `include/httpc/error.h`
(`ErrorType.NONE = 0`, `TRANSPORT = 1`, `HTTPC = 2`;
`HTTP_PARSE_FAILURE = 2`, `CONNECTION_CLOSED = 6`). -/

structure CError where
  type : Nat
  code : Nat
deriving DecidableEq, Repr

def errNone : CError := ⟨0, 0⟩

def errParseFailure : CError := ⟨2, 2⟩

/-- Modelled from the spec: the `INVALID_REQUEST_SYNTAX` member of
`HttpClientErrorCode` used by `httpc.c` is absent from the header revision in
the source tree; the spec calls it `InvalidRequest`.  Only its identity (a
typed `HTTPC`-family code distinct from the others) matters here. -/
def errInvalidRequest : CError := ⟨2, 4⟩

/-- A heap buffer: `base` is the address `realloc` returned for its backing
store, `data` the meaningful bytes (`len = data.length`), `capacity` the
allocated size. -/
structure CBuffer where
  base : Int
  data : List Char
  capacity : Nat
deriving DecidableEq, Repr

/-- An allocation oracle: outcome of the n-th `realloc`/`malloc` call, either
a new base address or failure. -/
def AllocOracle : Type := Nat → Option Int

/-- The doubling loop of `growable_buffer_append` with explicit fuel. -/
def doubleUntilFuel : Nat → Nat → Nat → Nat
  | 0, start, _ => start
  | fuel + 1, start, needed =>
    if start < needed then doubleUntilFuel fuel (2 * start) needed else start

/-- The doubling loop of `growable_buffer_append`: double `start` until
`needed` fits.  `needed` units of fuel always suffice for the positive
starts the C code passes (the start doubles every round). -/
def doubleUntil (start needed : Nat) : Nat := doubleUntilFuel needed start needed

/-- `growable_buffer_append`: when the append exceeds capacity, pick
2048 or double-until-fit as the new capacity and `realloc` (failure is
`HttpParseFailure`); then copy the bytes and bump `len`. -/
def growable_buffer_append (alloc : AllocOracle) (idx : Nat) (buf : CBuffer)
    (bytes : List Char) : Except CError (CBuffer × Nat) :=
  if buf.capacity < buf.data.length + bytes.length then
    let newCap := doubleUntil (if buf.capacity == 0 then 2048 else buf.capacity * 2)
                    (buf.data.length + bytes.length)
    match alloc idx with
    | none => .error errParseFailure
    | some b =>
      .ok ({ base := b, data := buf.data ++ bytes, capacity := newCap }, idx + 1)
  else .ok ({ buf with data := buf.data ++ bytes }, idx)

inductive CHttpMethod where
  | get
  | post
deriving DecidableEq, Repr

/-- `HttpRequest`: `body` is a `const char*`, so `none` models `NULL`. -/
structure CHttpRequest where
  method : CHttpMethod
  path : List Char
  body : Option (List Char)
  headers : List (List Char × List Char)
deriving DecidableEq, Repr

/-- `HttpResponse` of the C engine.  The `char*` views `status_message` and
`headers[i].key/value` all have the form `base-at-detection + fixed offset
into the head block`: they are set once by `http_response_parse_headers`
(pointers into the buffer at its then-current base), and afterwards the only
mutation the C code ever applies is adding one shared base delta to every
one of them in the content-length reallocation (lines 162-167); the
top-of-loop growth reallocation (lines 112-120) applies no delta at all.
The model therefore stores their single shared base in `views_base` and
their byte contents in `status_message`/`headers`; a view dangles exactly
when `views_base` differs from the buffer's current base.  `body_addr` is
the `body` pointer, `owned_buffer` the `_owned_buffer` field.
The `content_length` field is modelled from the spec ("an optional parsed
content-length"): the header revision in the source tree predates it, but
`http1_protocol.c` assigns it when a `Content-Length` header is found and
`http1_protocol_perform_request` zeroes it beforehand. -/
structure CResponse where
  status_code : Int
  status_message : List Char
  headers : List (List Char × List Char)
  views_base : Int
  body_addr : Int
  body_len : Nat
  content_length : Int
  owned_buffer : Option Int
deriving DecidableEq, Repr

/-- A caller-side `HttpResponse response = {};`. -/
def zeroCResponse : CResponse :=
  { status_code := 0, status_message := [], headers := [], views_base := 0
    body_addr := 0, body_len := 0, content_length := 0, owned_buffer := none }

/-- `snprintf` into a `size`-byte stack buffer stores at most `size - 1`
characters.  (In the C code the *returned* untruncated length is what gets
appended, reading past the stack buffer when truncation occurs — undefined
behaviour; the model appends the stored bytes, and every theorem about
serialization carries the no-truncation hypothesis.) -/
def snprintfBytes (size : Nat) (s : List Char) : List Char := s.take (size - 1)

def methodStr : CHttpMethod → List Char
  | .get => "GET".toList
  | .post => "POST".toList

/-- The header-line loop of `build_request_headers_in_buffer`: append
`"<key>: <value>\r\n"` for each header in input order. -/
def appendHeaderLines (alloc : AllocOracle) (idx : Nat) (buf : CBuffer) :
    List (List Char × List Char) → Except CError (CBuffer × Nat)
  | [] => .ok (buf, idx)
  | (k, v) :: rest => do
    let line := snprintfBytes 1024 (k ++ (": ".toList) ++ v ++ crlf)
    let (buf1, idx1) ← growable_buffer_append alloc idx buf line
    appendHeaderLines alloc idx1 buf1 rest

/-- `build_request_headers_in_buffer`: reset the buffer length to 0, append
the request line `"<METHOD> <path> HTTP/1.1\r\n"`, each header line in input
order, then the blank line `"\r\n"`. -/
def build_request_headers_in_buffer (alloc : AllocOracle) (idx : Nat)
    (buf : CBuffer) (req : CHttpRequest) : Except CError (CBuffer × Nat) := do
  let buf0 : CBuffer := { buf with data := [] }
  let line := snprintfBytes 2048
    (methodStr req.method ++ [' '] ++ req.path ++ (" HTTP/1.1\r\n".toList))
  let (buf1, idx1) ← growable_buffer_append alloc idx buf0 line
  let (buf2, idx2) ← appendHeaderLines alloc idx1 buf1 req.headers
  growable_buffer_append alloc idx2 buf2 crlf

/-- `get_content_length_from_request`: the `(size_t)atoi(value)` of the first
`Content-Length` request header (case-insensitive), else 0.  The `size_t`
cast wraps modulo 2^64. -/
def get_content_length_from_request (req : CHttpRequest) : Nat :=
  match req.headers.find? (fun kv => strCaseEq kv.1 ("Content-Length".toList)) with
  | some kv => ((atoiModel kv.2) % ((2 : Int) ^ 64)).toNat
  | none => 0

/-- `build_request_in_buffer`: headers first, then — for a POST with a
non-NULL body — `body_len` bytes of the body. -/
def build_request_in_buffer (alloc : AllocOracle) (idx : Nat) (buf : CBuffer)
    (req : CHttpRequest) (bodyLen : Nat) : Except CError (CBuffer × Nat) := do
  let (buf1, idx1) ← build_request_headers_in_buffer alloc idx buf req
  match req.body, req.method with
  | some b, .post => growable_buffer_append alloc idx1 buf1 (b.take bodyLen)
  | _, _ => .ok (buf1, idx1)

/-- The status code of `http_response_parse_headers`:
`sscanf(line, "HTTP/1.1 %d", ...)` — match the literal, skip whitespace,
parse an optionally signed integer; on match failure the zero-initialised
field stays 0. -/
def cParseStatusCode (line : List Char) : Int :=
  if ("HTTP/1.1".toList).isPrefixOf line then
    let rest := (line.drop 8).dropWhile isSpaceChar
    match rest with
    | '-' :: r => -(digitsVal (r.takeWhile Char.isDigit) : Int)
    | '+' :: r => (digitsVal (r.takeWhile Char.isDigit) : Int)
    | _ => (digitsVal (rest.takeWhile Char.isDigit) : Int)
  else 0

/-- The status message of `http_response_parse_headers`: everything after the
second space of the status line (two `strchr(_, ' ') + 1` hops). -/
def cStatusMessage (line : List Char) : List Char :=
  match line.findIdx? (fun c => c == ' ') with
  | none => []
  | some i =>
    let rest := line.drop (i + 1)
    match rest.findIdx? (fun c => c == ' ') with
    | none => []
    | some j => rest.drop (j + 1)

/-- Split one header line at its first colon (`strchr(line, ':')`), trimming
leading spaces from the value; `none` when the line has no colon. -/
def cSplitHeader (t : List Char) : Option (List Char × List Char) :=
  match t.findIdx? (fun c => c == ':') with
  | none => none
  | some i => some (t.take i, (t.drop (i + 1)).dropWhile (fun c => c == ' '))

/-- The header-storing loop of `http_response_parse_headers`: walk the
remaining `strtok_r` tokens, stop once 32 headers are stored, store only
lines containing a colon. -/
def cHeadersLoop : List (List Char) → Nat → List (List Char × List Char)
  | [], _ => []
  | t :: rest, count =>
    if 32 ≤ count then []
    else
      match cSplitHeader t with
      | some kv => kv :: cHeadersLoop rest (count + 1)
      | none => cHeadersLoop rest count

structure CParsedHead where
  status_code : Int
  status_message : List Char
  headers : List (List Char × List Char)
deriving DecidableEq, Repr

/-- `http_response_parse_headers` on the NUL-terminated header block (the
bytes before the header terminator): first `strtok_r` token is the status
line, the rest are header lines. -/
def cParseHead (block : List Char) : CParsedHead :=
  match strtokTokens block with
  | [] => ⟨0, [], []⟩
  | statusLine :: rest =>
    ⟨cParseStatusCode statusLine, cStatusMessage statusLine, cHeadersLoop rest 0⟩

/-- The `Content-Length` scan of `parse_response_unsafe` over the parsed
headers: `atoi` of the first case-insensitive match. -/
def cFindContentLength (hs : List (List Char × List Char)) : Option Int :=
  (hs.find? (fun kv => strCaseEq kv.1 ("Content-Length".toList))).map
    (fun kv => atoiModel kv.2)

/-! ### The transport read script

A blocking stream transport is a list of chunks the peer sends before
closing.  `read(fd, buf, n)` delivers up to `n` bytes of the next pending
chunk; once the script is exhausted every read reports `CONNECTION_CLOSED`
(`read` returning 0), exactly as `tcp_transport_read` maps it. -/

def dropEmptyChunks : List (List Char) → List (List Char)
  | [] => []
  | [] :: rest => dropEmptyChunks rest
  | (c :: cs) :: rest => (c :: cs) :: rest

/-- One transport read of at most `n` bytes: `none` = connection closed. -/
def streamRead (chunks : List (List Char)) (n : Nat) :
    Option (List Char × List (List Char)) :=
  match dropEmptyChunks chunks with
  | [] => none
  | c :: rest =>
    let d := c.take n
    let rem := c.drop n
    some (d, if rem.isEmpty then rest else rem :: rest)

/-- Bytes still pending in the script plus chunk count — the termination
measure of the read loops. -/
def chunksMeasure (chunks : List (List Char)) : Nat :=
  (chunks.map List.length).sum + chunks.length

/-- `cTotalSize hl cl` is the C `size_t total_size = header_len +
content_length` with its modulo-2^64 conversion of the `int` summand. -/
def cTotalSize (hl : Nat) (cl : Int) : Nat :=
  (((hl : Int) + cl) % ((2 : Int) ^ 64)).toNat

/-- Loop state of `parse_response_unsafe`.  `buf.data` lists the `len`
received bytes; `stale` lists the initialized storage bytes beyond `len` —
the tail of the serialized request retained in the buffer when the parse
reset `len` to 0 without clearing the bytes.  The C `strstr` scan is not
bounded by `len` and reads them. -/
structure CParseState where
  buf : CBuffer
  stale : List Char
  chunks : List (List Char)
  allocIdx : Nat
  headersParsed : Bool
  headerLen : Nat
  contentLength : Int
  res : CResponse
deriving DecidableEq, Repr

/-- Write `'\0'` at index `i` of the buffer content; a write at or past `len`
lands in capacity slack and is invisible to the meaningful bytes. -/
def writeNulAt (data : List Char) (i : Nat) : List Char :=
  if i < data.length then data.set i (Char.ofNat 0) else data

/-- The header-detection step run once per loop iteration while
`!headers_parsed`: `strstr(buffer.data, "\r\n\r\n")` is not bounded by
`len` — it scans the received bytes and then the retained `stale` bytes of
the serialized request, so a terminator sitting in the stale tail is found
as readily as a real one.  On a hit the head block is the storage up to the
hit (`header_len = hit + 4`, which can exceed `len`), the head is parsed,
and the `Content-Length` scan result recorded (the local stays `-1` and the
response field keeps its prior value when no such header exists); the view
pointers are planted at the buffer's current base (`views_base`).  When
neither region holds a terminator the C `strstr` would continue into
uninitialized storage (indeterminate bytes, and no NUL is guaranteed before
the allocation ends — undefined behaviour); the model takes the not-found
branch, and every concrete run evaluated below keeps a terminator inside
the initialized bytes. -/
def cDetectHeaders (st : CParseState) : CParseState :=
  if st.headersParsed then st
  else
    match findSubIdx headerSep (st.buf.data ++ st.stale) with
    | none => st
    | some p =>
      let head := cParseHead ((st.buf.data ++ st.stale).take p)
      let cl? := cFindContentLength head.headers
      { st with
        headersParsed := true
        headerLen := p + 4
        contentLength := cl?.getD (-1)
        res := { st.res with
                 status_code := head.status_code
                 status_message := head.status_message
                 headers := head.headers
                 views_base := st.buf.base
                 content_length := cl?.getD st.res.content_length } }

/-- The mid-parse body reallocation of `parse_response_unsafe` (lines
150–168): once the total size is known, `realloc` to `total_size + 1` when
capacity is short; this — and only this — reallocation adds the base delta
to every view pointer (lines 162–167), modelled by shifting the shared
`views_base`. -/
def cEnsureBody (alloc : AllocOracle) (st : CParseState) :
    Except CError CParseState :=
  let total := cTotalSize st.headerLen st.contentLength
  if st.buf.capacity < total + 1 then
    match alloc st.allocIdx with
    | none => .error errParseFailure
    | some b =>
      .ok { st with
        buf := ⟨b, st.buf.data, total + 1⟩,
        allocIdx := st.allocIdx + 1,
        res := { st.res with
                 views_base := st.res.views_base + (b - st.buf.base) } }
  else .ok st

/-- The content-length success exit: `body = data + header_len`,
`body_len = content_length` (with its `int → size_t` conversion), and a NUL
written at `data[total_size]`. -/
def cAssignBodyCL (st : CParseState) : CParseState :=
  let total := cTotalSize st.headerLen st.contentLength
  { st with
    buf := { st.buf with data := writeNulAt st.buf.data total }
    res := { st.res with
             body_addr := st.buf.base + st.headerLen
             body_len := (st.contentLength % ((2 : Int) ^ 64)).toNat } }

/-- The connection-close success exit when no content-length is known:
`body = data + header_len`, `body_len = len - header_len` (the NUL write at
`data[len]` lands in capacity slack). -/
def cAssignBodyClose (st : CParseState) : CParseState :=
  { st with
    res := { st.res with
             body_addr := st.buf.base + st.headerLen
             body_len := st.buf.data.length - st.headerLen } }

/-- The post-loop check of `parse_response_unsafe`: closing before any
terminator with bytes received is `HttpParseFailure`; every other loop exit
returns success. -/
def cFinish (st : CParseState) : Except (CError × CParseState) CParseState :=
  if !st.headersParsed && 0 < st.buf.data.length then
    .error (errParseFailure, st)
  else .ok st

/-- The top-of-loop growth of `parse_response_unsafe` (lines 111–120):
double the capacity (2048 from empty) when the buffer is full; a failed
`realloc` is `HttpParseFailure` and leaves the buffer untouched.  Unlike
the content-length reallocation, this one applies no delta to the view
pointers: `views_base` is (faithfully) left behind at the old address. -/
def cGrow (alloc : AllocOracle) (st : CParseState) :
    Except (CError × CParseState) CParseState :=
  if st.buf.data.length == st.buf.capacity then
    let newCap := if st.buf.capacity == 0 then 2048 else st.buf.capacity * 2
    match alloc st.allocIdx with
    | none => .error (errParseFailure, st)
    | some b =>
      .ok { st with buf := ⟨b, st.buf.data, newCap⟩, allocIdx := st.allocIdx + 1 }
  else .ok st

/-- The read loop of `parse_response_unsafe`, one fuel unit per iteration
(`none` = fuel exhausted, which no run from a valid state reaches): grow when
`len == capacity`, read, detect headers, then take the content-length or
connection-close exits exactly as the C control flow does.  Errors carry the
engine state at the point of return. -/
def cParseLoop (alloc : AllocOracle) :
    Nat → CParseState → Option (Except (CError × CParseState) CParseState)
  | 0, _ => none
  | fuel + 1, st =>
    match cGrow alloc st with
    | .error e => some (.error e)
    | .ok st1 =>
      let n := st1.buf.capacity - st1.buf.data.length
      match streamRead st1.chunks n with
      | none =>
        let st3 := cDetectHeaders st1
        if st3.headersParsed then
          if st3.contentLength ≠ -1 then
            match cEnsureBody alloc st3 with
            | .error e => some (.error (e, st3))
            | .ok st4 =>
              if cTotalSize st4.headerLen st4.contentLength ≤ st4.buf.data.length then
                some (.ok (cAssignBodyCL st4))
              else some (cFinish st4)
          else some (.ok (cAssignBodyClose st3))
        else some (cFinish st3)
      | some (d, rest) =>
        let st2 := { st1 with buf := { st1.buf with data := st1.buf.data ++ d },
                              stale := st1.stale.drop d.length,
                              chunks := rest }
        let st3 := cDetectHeaders st2
        if st3.headersParsed then
          if st3.contentLength ≠ -1 then
            match cEnsureBody alloc st3 with
            | .error e => some (.error (e, st3))
            | .ok st4 =>
              if cTotalSize st4.headerLen st4.contentLength ≤ st4.buf.data.length then
                some (.ok (cAssignBodyCL st4))
              else cParseLoop alloc fuel st4
          else cParseLoop alloc fuel st3
        else cParseLoop alloc fuel st3

/-- Fuel that any run from a valid state stays within. -/
def cFuelFor (chunks : List (List Char)) : Nat := chunksMeasure chunks + 2

/-- `parse_response_unsafe`: reset the buffer length to 0 — the already
present bytes (the serialized request) are not cleared and remain in
storage as `stale`, visible to the loop's `strstr` — clear the parse state
and `_owned_buffer`, and run the read loop against the transport script. -/
def parse_response_unsafe (alloc : AllocOracle) (idx : Nat) (buf : CBuffer)
    (chunks : List (List Char)) (res0 : CResponse) :
    Option (Except (CError × CParseState) CParseState) :=
  cParseLoop alloc (cFuelFor chunks)
    { buf := { buf with data := [] }, stale := buf.data
      chunks := chunks, allocIdx := idx
      headersParsed := false, headerLen := 0, contentLength := -1
      res := { res0 with owned_buffer := none } }

/-- Outcome of `parse_response_safe`: the error (`errNone` on success), the
response, the engine buffer left for reuse, and the heap addresses freed. -/
structure CSafeOutcome where
  err : CError
  res : CResponse
  engineBuf : CBuffer
  freed : List Int
deriving DecidableEq, Repr

/-- `parse_response_safe`: swap in a fresh `{nullptr, 0, 0}` buffer, run the
unsafe parse into it; on failure free the partially filled buffer (when it
holds an allocation) and restore the original; on success hand the fresh
buffer to the response as `_owned_buffer` and restore the original. -/
def parse_response_safe (alloc : AllocOracle) (idx : Nat) (origBuf : CBuffer)
    (chunks : List (List Char)) (res0 : CResponse) : Option CSafeOutcome :=
  match parse_response_unsafe alloc idx ⟨0, [], 0⟩ chunks res0 with
  | none => none
  | some (.error (e, stFail)) =>
    some { err := e, res := stFail.res
           engineBuf := origBuf
           freed := if 0 < stFail.buf.capacity then [stFail.buf.base] else [] }
  | some (.ok stOk) =>
    some { err := errNone
           res := { stOk.res with owned_buffer := some stOk.buf.base }
           engineBuf := origBuf
           freed := [] }

inductive CIoPolicy where
  | copyWrite
  | vectoredWrite
deriving DecidableEq, Repr

/-- The write stage of `http1_protocol_perform_request`: the list of byte
segments handed to the transport in one call — two `iovec`s for the
vectored-write POST path, one whole-buffer segment otherwise. -/
def http1_io_segments (alloc : AllocOracle) (idx : Nat) (buf : CBuffer)
    (req : CHttpRequest) (ioPol : CIoPolicy) :
    Except CError (List (List Char) × CBuffer × Nat) :=
  let bodyLen := get_content_length_from_request req
  match req.method, ioPol with
  | .post, .vectoredWrite => do
    let (buf1, idx1) ← build_request_headers_in_buffer alloc idx buf req
    .ok ([buf1.data, (req.body.getD []).take bodyLen], buf1, idx1)
  | _, _ => do
    let (buf1, idx1) ← build_request_in_buffer alloc idx buf req bodyLen
    .ok ([buf1.data], buf1, idx1)

/-- `http1_protocol_perform_request` in zero-copy mode: serialize and write
per the I/O policy, zero `response->content_length`, then run the unsafe
parse. -/
def cPerformUnsafe (alloc : AllocOracle) (idx : Nat) (buf : CBuffer)
    (chunks : List (List Char)) (req : CHttpRequest) (ioPol : CIoPolicy)
    (res0 : CResponse) : Option (Except CError CParseState) :=
  match http1_io_segments alloc idx buf req ioPol with
  | .error e => some (.error e)
  | .ok (_segs, buf1, idx1) =>
    match parse_response_unsafe alloc idx1 buf1 chunks
        { res0 with content_length := 0 } with
    | none => none
    | some (.error (e, _)) => some (.error e)
    | some (.ok st) => some (.ok st)

/-- `http1_protocol_perform_request` in safe-owning mode. -/
def cPerformSafe (alloc : AllocOracle) (idx : Nat) (buf : CBuffer)
    (chunks : List (List Char)) (req : CHttpRequest) (ioPol : CIoPolicy)
    (res0 : CResponse) : Option CSafeOutcome :=
  match http1_io_segments alloc idx buf req ioPol with
  | .error e => some { err := e, res := res0, engineBuf := buf, freed := [] }
  | .ok (_segs, buf1, idx1) =>
    parse_response_safe alloc idx1 buf1 chunks { res0 with content_length := 0 }

/-- `http_client_get` validation (`httpc.c` lines 17–31): reject with
`INVALID_REQUEST_SYNTAX` when `body` is non-NULL, before any I/O; otherwise
force the method to GET and delegate.  (The `self`/`request`/`response`/
`path` NULL checks guard the calling convention and stay outside the
model.) -/
def http_client_get_validate (req : CHttpRequest) : Except CError CHttpRequest :=
  if req.body.isSome then .error errInvalidRequest
  else .ok { req with method := .get }

/-- `http_client_post` validation (`httpc.c` lines 33–56): reject with
`INVALID_REQUEST_SYNTAX` when `body` is NULL or when no case-insensitive
`Content-Length` header is present, before any I/O; otherwise force the
method to POST and delegate. -/
def http_client_post_validate (req : CHttpRequest) : Except CError CHttpRequest :=
  match req.body with
  | none => .error errInvalidRequest
  | some _ =>
    if (req.headers.find? (fun kv => strCaseEq kv.1 ("Content-Length".toList))).isSome then
      .ok { req with method := .post }
    else .error errInvalidRequest

/-- `http_client_get` end to end: on rejection the transport script is
returned untouched (no I/O happened); otherwise the engine runs. -/
def http_client_get (alloc : AllocOracle) (idx : Nat) (buf : CBuffer)
    (chunks : List (List Char)) (req : CHttpRequest) (ioPol : CIoPolicy)
    (res0 : CResponse) :
    Option (Except CError CParseState) × List (List Char) :=
  match http_client_get_validate req with
  | .error e => (some (.error e), chunks)
  | .ok req2 =>
    match cPerformUnsafe alloc idx buf chunks req2 ioPol res0 with
    | some (.ok st) => (some (.ok st), st.chunks)
    | other => (other, [])

/-- `http_client_post` end to end, as `http_client_get`. -/
def http_client_post (alloc : AllocOracle) (idx : Nat) (buf : CBuffer)
    (chunks : List (List Char)) (req : CHttpRequest) (ioPol : CIoPolicy)
    (res0 : CResponse) :
    Option (Except CError CParseState) × List (List Char) :=
  match http_client_post_validate req with
  | .error e => (some (.error e), chunks)
  | .ok req2 =>
    match cPerformUnsafe alloc idx buf chunks req2 ioPol res0 with
    | some (.ok st) => (some (.ok st), st.chunks)
    | other => (other, [])

/-! ## C++ implementation model (`include/httpcpp/http1_protocol.hpp`,
`include/httpcpp/httpcpp.hpp`) -/

inductive CppTransportError where
  | noError
  | dnsFailure
  | socketCreateFailure
  | socketConnectFailure
  | socketWriteFailure
  | socketReadFailure
  | connectionClosed
  | socketCloseFailure
  | initFailure
deriving DecidableEq, Repr

inductive CppClientError where
  | noError
  | urlParseFailure
  | httpParseFailure
  | invalidRequest
  | initFailure
deriving DecidableEq, Repr

/-- `httpcpp::Error = std::variant<TransportError, HttpClientError>`. -/
inductive CppError where
  | transport (e : CppTransportError)
  | client (e : CppClientError)
deriving DecidableEq, Repr

/-- `httpcpp::HttpRequest`: the body is a `std::span`, so emptiness (not
nullness) is the distinguished state. -/
structure CppHttpRequest where
  method : CHttpMethod
  path : List Char
  body : List Char
  headers : List (List Char × List Char)
deriving DecidableEq, Repr

/-- `Http1Protocol::build_request_string`: request line, headers in input
order, blank line, then the body bytes (appending an empty body is a
no-op). -/
def cppBuildRequestString (req : CppHttpRequest) : List Char :=
  methodStr req.method ++ [' '] ++ req.path ++ (" HTTP/1.1\r\n".toList) ++
  (req.headers.map (fun kv => kv.1 ++ (": ".toList) ++ kv.2 ++ crlf)).flatten ++
  crlf ++ req.body

/-- The `Content-Length` scan of `read_full_response` over the header lines
after the status line: stop at the first empty line; at the first line whose
first 15 bytes case-insensitively equal `"Content-Length:"`, parse the
value after trimming spaces and tabs (`std::from_chars`, failure leaves the
length unset) and stop. -/
def cppScanCL : List (List Char) → Option Nat
  | [] => none
  | l :: rest =>
    if l.isEmpty then none
    else if 15 ≤ l.length && strCaseEq (l.take 15) ("Content-Length:".toList) then
      fromCharsNat ((l.drop 15).dropWhile (fun c => c == ' ' || c == '\t'))
    else cppScanCL rest

/-- The header-view walk of `read_full_response` (lines 160–178): the view is
`buffer[0, header_size)`, the walk starts after the first `"\r\n"` — i.e. on
the `"\r\n"`-separated segments after the status line. -/
def cppScanContentLength (buffer : List Char) (hs : Nat) : Option Nat :=
  cppScanCL ((splitCRLF (buffer.take hs)).drop 1)

/-- Loop state of `Http1Protocol::read_full_response`:
`buffer_`, its `std::vector` capacity, `header_size_`, `content_length_`. -/
structure CppReadState where
  buffer : List Char
  capacity : Nat
  headerSize : Nat
  contentLength : Option Nat
deriving DecidableEq, Repr

/-- The check after the read loop of `read_full_response`: end-of-stream
before any header terminator with bytes received is `HttpParseFailure`. -/
def cppFinish (st : CppReadState) : Except CppError CppReadState :=
  if st.headerSize == 0 && !st.buffer.isEmpty then
    .error (.client .httpParseFailure)
  else .ok st

theorem chunksMeasure_dropEmpty_le (l : List (List Char)) :
    chunksMeasure (dropEmptyChunks l) ≤ chunksMeasure l := by
  induction l with
  | nil => simp [dropEmptyChunks]
  | cons c rest ih =>
    match c with
    | [] => simp [dropEmptyChunks, chunksMeasure] at *; omega
    | x :: xs => simp [dropEmptyChunks]

theorem dropEmptyChunks_head_ne {l : List (List Char)} {c : List Char}
    {rest : List (List Char)} (h : dropEmptyChunks l = c :: rest) : c ≠ [] := by
  induction l with
  | nil => simp [dropEmptyChunks] at h
  | cons c0 r0 ih =>
    match c0 with
    | [] =>
      simp only [dropEmptyChunks] at h
      exact ih h
    | x :: xs =>
      simp only [dropEmptyChunks, List.cons.injEq] at h
      rw [← h.1]
      simp

theorem streamRead_measure {chunks : List (List Char)} {n : Nat}
    {d : List Char} {rest : List (List Char)} (hn : 0 < n)
    (h : streamRead chunks n = some (d, rest)) :
    chunksMeasure rest < chunksMeasure chunks := by
  unfold streamRead at h
  have hle := chunksMeasure_dropEmpty_le chunks
  rcases hde : dropEmptyChunks chunks with _ | ⟨c, rest1⟩
  · rw [hde] at h; simp at h
  · rw [hde] at h
    simp only [Option.some.injEq, Prod.mk.injEq] at h
    obtain ⟨hd, hrest⟩ := h
    have hcne : c ≠ [] := dropEmptyChunks_head_ne hde
    rw [hde] at hle
    subst hrest
    by_cases hrem : (c.drop n).isEmpty
    · simp only [hrem, if_true]
      simp [chunksMeasure] at hle ⊢
      have : 0 < c.length := List.length_pos.mpr hcne
      omega
    · simp only [hrem, if_false]
      simp [chunksMeasure] at hle ⊢
      have hlen : (c.drop n).length = c.length - n := List.length_drop n c
      have : 0 < c.length := List.length_pos.mpr hcne
      omega

/-- The per-iteration header work of `read_full_response` after a successful
read of `d`: append, and while `header_size_ == 0` search for the terminator,
on a hit recording `header_size_` and the `Content-Length` scan result. -/
def cppHeaderStep (st : CppReadState) (d : List Char) (cap2 : Nat) : CppReadState :=
  let buf2 := st.buffer ++ d
  if st.headerSize == 0 then
    match findSubIdx headerSep buf2 with
    | some p =>
      { buffer := buf2, capacity := cap2, headerSize := p + 4
        contentLength := cppScanContentLength buf2 (p + 4) }
    | none => { st with buffer := buf2, capacity := cap2 }
  else { st with buffer := buf2, capacity := cap2 }

/-- The read loop of `Http1Protocol::read_full_response`: read up to
`max(capacity - size, 1024)` bytes (the vector doubles its capacity when the
resize target exceeds it), search for the header terminator while
`header_size_ == 0` and scan for `Content-Length` on discovery, break once
the declared body length is buffered; on end-of-stream report
`HttpParseFailure` when short of a declared content-length, else break into
the post-loop check.  Returns the final state and the unread script. -/
def cppReadAmount (st : CppReadState) : Nat :=
  max (st.capacity - st.buffer.length) 1024

/-- The vector capacity after `resize(old_size + read_amount)`: unchanged
when the target fits, else geometric growth. -/
def cppCap2 (st : CppReadState) : Nat :=
  if st.buffer.length + cppReadAmount st ≤ st.capacity then st.capacity
  else max (2 * st.capacity) (st.buffer.length + cppReadAmount st)

def cppReadLoop (st : CppReadState) (chunks : List (List Char)) :
    Except CppError (CppReadState × List (List Char)) :=
  let readAmount := cppReadAmount st
  let cap2 := cppCap2 st
  match h : streamRead chunks readAmount with
  | none =>
    match st.contentLength with
    | some cl =>
      if st.buffer.length < st.headerSize + cl then
        .error (.client .httpParseFailure)
      else (cppFinish { st with capacity := cap2 }).map (fun s => (s, []))
    | none => (cppFinish { st with capacity := cap2 }).map (fun s => (s, []))
  | some (d, rest) =>
    let st2 := cppHeaderStep st d cap2
    match st2.contentLength with
    | some cl =>
      if st2.headerSize + cl ≤ st2.buffer.length then .ok (st2, rest)
      else cppReadLoop st2 rest
    | none => cppReadLoop st2 rest
termination_by chunksMeasure chunks
decreasing_by
  all_goals
    exact streamRead_measure (Nat.lt_of_lt_of_le (by norm_num) (Nat.le_max_right _ 1024)) h

/-- One header line of `parse_unsafe_response`: split at the first colon,
trim spaces and tabs from the value; colon-less lines are skipped. -/
def cppHeaderKV (line : List Char) : Option (List Char × List Char) :=
  match line.findIdx? (fun c => c == ':') with
  | none => none
  | some i =>
    some (line.take i, (line.drop (i + 1)).dropWhile (fun c => c == ' ' || c == '\t'))

/-- The header-pair loop of `parse_unsafe_response` (lines 220–233): every
`"\r\n"`-separated line of the block after the status line, keeping those
with a colon.  (The C++ index walk visits exactly the `splitCRLF` segments;
the trailing empty segment of a block ending in `"\r\n"` has no colon and
drops out either way.) -/
def cppParseHeaderLines (s : List Char) : List (List Char × List Char) :=
  (splitCRLF s).filterMap cppHeaderKV

/-- `std::from_chars` into `int`. -/
def fromCharsInt (s : List Char) : Option Int :=
  match s with
  | '-' :: r => (fromCharsNat r).map (fun n => -(n : Int))
  | _ => (fromCharsNat s).map (fun n => (n : Int))

/-- `httpcpp::UnsafeHttpResponse` by content (its views alias `buffer_`).
`content_length` is the `std::optional` field, which `parse_unsafe_response`
never assigns. -/
structure CppUnsafeResponse where
  status_code : Int
  status_message : List Char
  body : List Char
  headers : List (List Char × List Char)
  content_length : Option Nat
deriving DecidableEq, Repr

/-- `Http1Protocol::parse_unsafe_response`: fail when no terminator was
found; parse the status line (code between the first two spaces via
`from_chars`, message after the second space); parse the header pairs; the
body is `buffer[header_size, header_size + content_length)` when a length is
known, else everything from `header_size` on. -/
def cppParseUnsafeResponse (st : CppReadState) : Except CppError CppUnsafeResponse :=
  if st.headerSize == 0 then .error (.client .httpParseFailure)
  else
    let headersBlock := st.buffer.take (st.headerSize - 4)
    match findSubIdx crlf headersBlock with
    | none => .error (.client .httpParseFailure)
    | some statusEnd =>
      let statusLine := headersBlock.take statusEnd
      match statusLine.findIdx? (fun c => c == ' ') with
      | none => .error (.client .httpParseFailure)
      | some codeStart =>
        match (statusLine.drop (codeStart + 1)).findIdx? (fun c => c == ' ') with
        | none => .error (.client .httpParseFailure)
        | some off =>
          let codeSv := (statusLine.drop (codeStart + 1)).take off
          match fromCharsInt codeSv with
          | none => .error (.client .httpParseFailure)
          | some code =>
            let message := statusLine.drop (codeStart + 1 + off + 1)
            let headers := cppParseHeaderLines (headersBlock.drop (statusEnd + 2))
            let body :=
              match st.contentLength with
              | some cl => (st.buffer.drop st.headerSize).take cl
              | none => st.buffer.drop st.headerSize
            .ok { status_code := code, status_message := message, body := body
                  headers := headers, content_length := none }

/-- `Http1Protocol::perform_request_unsafe` from the read onwards: run
`read_full_response` on a cleared buffer (capacity retained from the request
serialization) against the script, then `parse_unsafe_response`.  The final
`content_length_` member accompanies the result (the engine state the tests
observe through `get_content_length_for_test`). -/
def cppPerformUnsafe (cap0 : Nat) (chunks : List (List Char)) :
    Except CppError (CppUnsafeResponse × Option Nat) :=
  match cppReadLoop { buffer := [], capacity := cap0, headerSize := 0, contentLength := none } chunks with
  | .error e => .error e
  | .ok (st, _) => (cppParseUnsafeResponse st).map (fun r => (r, st.contentLength))

/-- `HttpClient::get_unsafe`/`get_safe` validation: a non-empty body is
`InvalidRequest` before any I/O; otherwise the method is forced to GET. -/
def cppGetValidate (req : CppHttpRequest) : Except CppError CppHttpRequest :=
  if !req.body.isEmpty then .error (.client .invalidRequest)
  else .ok { req with method := .get }

/-- `HttpClient::validate_post_request` followed by the method force: an
empty body or a missing case-insensitive `Content-Length` header is
`InvalidRequest` before any I/O. -/
def cppPostValidate (req : CppHttpRequest) : Except CppError CppHttpRequest :=
  if req.body.isEmpty then .error (.client .invalidRequest)
  else if req.headers.any (fun kv => strCaseEq kv.1 ("Content-Length".toList)) then
    .ok { req with method := .post }
  else .error (.client .invalidRequest)

/-! ### View rebasing across reallocation (lines 150–168 of
`http1_protocol.c`)

The C engine stores `char*` views (status message, header keys and values)
into its buffer.  When the mid-parse `realloc` moves the backing store, the
code adds `new_data - old_data` to every outstanding view.  Here a view is
an address; its denotation is the byte suffix of the buffer it points into
(the C-string read stops at the first NUL of that suffix, so equal suffixes
denote equal strings). -/

/-- The bytes an address denotes inside a buffer: the suffix starting at its
offset from the base. -/
def viewBytes (b : CBuffer) (a : Int) : List Char := b.data.drop (a - b.base).toNat

/-- The pointer arithmetic of the rebasing block:
`view += (new_data - old_data)`. -/
def rebasePtr (oldBase newBase a : Int) : Int := a + (newBase - oldBase)

/-- The outstanding view pointers at the moment the mid-parse reallocation
fires: `response->status_message` and each `headers[i].key`/`.value`. -/
structure CResponseViews where
  status_message : Int
  headerPtrs : List (Int × Int)
deriving DecidableEq, Repr

/-- Lines 161–167: shift every outstanding view by `new_data - old_data`. -/
def rebaseViews (oldBase newBase : Int) (v : CResponseViews) : CResponseViews :=
  { status_message := rebasePtr oldBase newBase v.status_message
    headerPtrs := v.headerPtrs.map
      (fun kv => (rebasePtr oldBase newBase kv.1, rebasePtr oldBase newBase kv.2)) }

/-! ### Functional characterization of the C++ read-and-parse pipeline -/

/-- `perform_request_unsafe` from the read onwards as a pure function of the
full byte stream the peer sends before closing: no header terminator is
`HttpParseFailure`; with a parsed `Content-Length` the stream must carry that
many body bytes (else `HttpParseFailure`); the response is parsed from the
stream with the body framed by the content length when known, else by
end-of-stream. -/
def specPerform (S : List Char) : Except CppError (CppUnsafeResponse × Option Nat) :=
  match findSubIdx headerSep S with
  | none => .error (.client .httpParseFailure)
  | some p =>
    match cppScanContentLength S (p + 4) with
    | some n =>
      if p + 4 + n ≤ S.length then
        (cppParseUnsafeResponse ⟨S, 0, p + 4, some n⟩).map (fun r => (r, some n))
      else .error (.client .httpParseFailure)
    | none => (cppParseUnsafeResponse ⟨S, 0, p + 4, none⟩).map (fun r => (r, none))

/-- The read loop from an arbitrary mid-loop state, composed with the parse
stage. -/
def cppRunFrom (st : CppReadState) (chunks : List (List Char)) :
    Except CppError (CppUnsafeResponse × Option Nat) :=
  match cppReadLoop st chunks with
  | .error e => .error e
  | .ok (s, _) => (cppParseUnsafeResponse s).map (fun r => (r, s.contentLength))

/-- The header-detection part of the `cppReadLoop` invariant: `header_size_`
and `content_length_` are the values determined by the bytes consumed so
far. -/
def HdrInv (st : CppReadState) : Prop :=
  match findSubIdx headerSep st.buffer with
  | none => st.headerSize = 0 ∧ st.contentLength = none
  | some p => st.headerSize = p + 4 ∧
              st.contentLength = cppScanContentLength st.buffer (p + 4)

/-- Full mid-loop invariant: header detection is up to date and the break
condition has not fired yet. -/
def ReadInv (st : CppReadState) : Prop :=
  HdrInv st ∧ ∀ n, st.contentLength = some n → st.buffer.length < st.headerSize + n

/-! ### Expected serialization bytes -/

/-- Stated from the spec's words ("the request line
`"<METHOD> <path> HTTP/1.1\r\n"`, then each header as `"<key>: <value>\r\n"`
in input order, then the blank line", then the body bytes for a POST): the
byte sequence request serialization must produce. -/
def specRequestBytes (req : CHttpRequest) (bodyLen : Nat) : List Char :=
  methodStr req.method ++ [' '] ++ req.path ++ (" HTTP/1.1\r\n".toList) ++
  (req.headers.map (fun kv => kv.1 ++ (": ".toList) ++ kv.2 ++ crlf)).flatten ++
  crlf ++
  (match req.body, req.method with
   | some b, .post => b.take bodyLen
   | _, _ => [])

/-! ## Supporting lemmas -/

theorem findSubIdx_nil_pat (E : List Char) : findSubIdx [] E = some 0 := by
  cases E with
  | nil => simp [findSubIdx]
  | cons e es => simp [findSubIdx, List.isPrefixOf]

/-- The first occurrence of a pattern is stable under extending the
searched bytes on the right. -/
theorem findSubIdx_append {pat B E : List Char} {p : Nat}
    (h : findSubIdx pat B = some p) : findSubIdx pat (B ++ E) = some p := by
  induction B generalizing p with
  | nil =>
    unfold findSubIdx at h
    by_cases hp : pat.isEmpty
    · simp only [hp, if_pos] at h
      obtain rfl : (0 : Nat) = p := Option.some.inj h
      have : pat = [] := List.isEmpty_iff.mp hp
      subst this
      simpa using findSubIdx_nil_pat E
    · simp [hp] at h
  | cons c rest ih =>
    rw [List.cons_append]
    unfold findSubIdx at h ⊢
    by_cases hp : pat.isPrefixOf (c :: rest)
    · have hp2 : pat.isPrefixOf (c :: (rest ++ E)) := by
        rw [List.isPrefixOf_iff_prefix] at hp ⊢
        rw [← List.cons_append]
        exact hp.trans (List.prefix_append _ _)
      simp only [hp, if_pos] at h
      simpa [hp2] using h
    · simp only [hp, if_neg] at h
      rcases hfr : findSubIdx pat rest with _ | q
      · rw [hfr] at h; simp at h
      rw [hfr] at h
      simp at h
      subst h
      have hbound := findSubIdx_bound hfr
      have hp2 : ¬ pat.isPrefixOf (c :: (rest ++ E)) := by
        intro hcontra
        apply hp
        rw [List.isPrefixOf_iff_prefix] at hcontra ⊢
        rw [← List.cons_append] at hcontra
        exact List.prefix_of_prefix_length_le hcontra
          (List.prefix_append _ _) (by simp; omega)
      simp [hp2, ih hfr]

theorem dropEmptyChunks_flatten (l : List (List Char)) :
    (dropEmptyChunks l).flatten = l.flatten := by
  induction l with
  | nil => rfl
  | cons c rest ih =>
    match c with
    | [] => simpa [dropEmptyChunks] using ih
    | x :: xs => simp [dropEmptyChunks]

theorem streamRead_none_flatten {chunks : List (List Char)} {n : Nat}
    (h : streamRead chunks n = none) : chunks.flatten = [] := by
  unfold streamRead at h
  rcases hde : dropEmptyChunks chunks with _ | ⟨c, r⟩
  · rw [← dropEmptyChunks_flatten, hde]; rfl
  · rw [hde] at h; simp at h

theorem streamRead_some_flatten {chunks : List (List Char)} {n : Nat}
    {d : List Char} {rest : List (List Char)}
    (h : streamRead chunks n = some (d, rest)) :
    chunks.flatten = d ++ rest.flatten := by
  unfold streamRead at h
  rcases hde : dropEmptyChunks chunks with _ | ⟨c, r⟩
  · rw [hde] at h; simp at h
  · rw [hde] at h
    simp only [Option.some.injEq, Prod.mk.injEq] at h
    obtain ⟨hd, hrest⟩ := h
    rw [← dropEmptyChunks_flatten, hde]
    subst hd
    by_cases hrem : (c.drop n).isEmpty
    · simp only [hrem, if_true] at hrest
      subst hrest
      have hcd : c.drop n = [] := List.isEmpty_iff.mp hrem
      rw [List.flatten_cons]
      conv_lhs => rw [← List.take_append_drop n c, hcd, List.append_nil]
    · simp only [hrem, if_false] at hrest
      subst hrest
      simp [List.flatten_cons]
      rw [← List.append_assoc, List.take_append_drop]

/-- The content-length scan looks only at the first `hs` bytes. -/
theorem cppScanContentLength_extend {B E : List Char} {hs : Nat}
    (h : hs ≤ B.length) :
    cppScanContentLength (B ++ E) hs = cppScanContentLength B hs := by
  unfold cppScanContentLength
  rw [List.take_append_of_le_length h]

/-- The parse stage reads only the first `header_size + content_length`
bytes (all of them when no length is known), so it is stable under
extending the buffer. -/
theorem cppParse_extend {B E : List Char} {cap1 cap2 hs n : Nat}
    (hhs : hs ≤ B.length) (hn : hs + n ≤ B.length) :
    cppParseUnsafeResponse ⟨B ++ E, cap1, hs, some n⟩ =
    cppParseUnsafeResponse ⟨B, cap2, hs, some n⟩ := by
  unfold cppParseUnsafeResponse
  have htake : (B ++ E).take (hs - 4) = B.take (hs - 4) :=
    List.take_append_of_le_length (by omega)
  have hbody : ((B ++ E).drop hs).take n = (B.drop hs).take n := by
    rw [List.drop_append_of_le_length hhs]
    exact List.take_append_of_le_length (by simp; omega)
  simp only [htake, hbody]

/-- The parse stage ignores the capacity field. -/
theorem cppParse_capacity {B : List Char} {cap1 cap2 hs : Nat}
    {cl : Option Nat} :
    cppParseUnsafeResponse ⟨B, cap1, hs, cl⟩ =
    cppParseUnsafeResponse ⟨B, cap2, hs, cl⟩ := rfl

/-- One header step preserves the detection invariant and appends the read
bytes. -/
theorem hdrInv_step {st : CppReadState} (hinv : HdrInv st) (d : List Char)
    (cap2 : Nat) :
    HdrInv (cppHeaderStep st d cap2) ∧
    (cppHeaderStep st d cap2).buffer = st.buffer ++ d := by
  unfold HdrInv at hinv
  have hbuf : (cppHeaderStep st d cap2).buffer = st.buffer ++ d := by
    unfold cppHeaderStep
    by_cases h0 : st.headerSize == 0
    · simp only [h0, if_true]
      rcases hfs2 : findSubIdx headerSep (st.buffer ++ d) with _ | p2 <;>
        simp [hfs2]
    · simp [h0]
  refine ⟨?_, hbuf⟩
  rcases hfs : findSubIdx headerSep st.buffer with _ | p
  · rw [hfs] at hinv
    obtain ⟨hhs, hcl⟩ := hinv
    unfold cppHeaderStep
    simp only [hhs, beq_self_eq_true, if_true]
    rcases hfs2 : findSubIdx headerSep (st.buffer ++ d) with _ | p2
    · unfold HdrInv
      simp only [hfs2]
      simp [hhs, hcl]
    · unfold HdrInv
      simp only [hfs2]
      simp
  · rw [hfs] at hinv
    obtain ⟨hhs, hcl⟩ := hinv
    have hne : (st.headerSize == 0) = false := by simp [hhs]
    unfold cppHeaderStep
    simp only [hne, Bool.false_eq_true, if_false]
    have hfs2 : findSubIdx headerSep (st.buffer ++ d) = some p :=
      findSubIdx_append hfs
    have hple : p + 4 ≤ st.buffer.length := by
      have := findSubIdx_bound hfs
      simpa [headerSep] using this
    unfold HdrInv
    simp only [hfs2]
    exact ⟨hhs, by rw [cppScanContentLength_extend hple]; exact hcl⟩

/-- When the transport reports end-of-stream, the loop result matches the
pure-stream characterization of the bytes consumed so far. -/
theorem cppRunFrom_closed {st : CppReadState} {chunks : List (List Char)}
    (hinv : ReadInv st)
    (hclosed : streamRead chunks (cppReadAmount st) = none) :
    cppRunFrom st chunks = specPerform st.buffer := by
  obtain ⟨hhdr, hdone⟩ := hinv
  unfold cppRunFrom
  rw [cppReadLoop]
  rw [hclosed]
  unfold HdrInv at hhdr
  rcases hfs : findSubIdx headerSep st.buffer with _ | p
  · rw [hfs] at hhdr
    obtain ⟨hhs, hcl⟩ := hhdr
    by_cases hemp : st.buffer.isEmpty
    · simp [hcl, hhs, cppFinish, hemp, specPerform, hfs, cppParseUnsafeResponse,
        Except.map]
    · simp [hcl, hhs, cppFinish, hemp, specPerform, hfs, Except.map]
  · rw [hfs] at hhdr
    obtain ⟨hhs, hcl⟩ := hhdr
    rcases hclv : st.contentLength with _ | n
    · have hne : (st.headerSize == 0) = false := by simp [hhs]
      simp only [hclv]
      simp only [cppFinish, hne, Bool.false_and, Bool.false_eq_true, if_false,
        Except.map]
      simp only [specPerform, hfs, ← hcl, hclv, hhs]
      rfl
    · have hlt : st.buffer.length < st.headerSize + n := hdone n hclv
      simp only [hclv]
      simp only [if_pos hlt]
      simp only [specPerform, hfs, ← hcl, hclv, hhs]
      rw [if_neg (by omega)]

/-- From any state satisfying the loop invariant, the read-and-parse
pipeline computes the pure characterization of the total remaining
stream — in particular the result depends only on the concatenation of the
chunks, not on where the transport splits them. -/
theorem cppRunFrom_spec (N : Nat) :
    ∀ (chunks : List (List Char)) (st : CppReadState),
      chunksMeasure chunks ≤ N → ReadInv st →
      cppRunFrom st chunks = specPerform (st.buffer ++ chunks.flatten) := by
  induction N with
  | zero =>
    intro chunks st hm hinv
    have hchunks : chunks = [] := by
      cases chunks with
      | nil => rfl
      | cons c r => simp [chunksMeasure] at hm
    subst hchunks
    have hclosed : streamRead [] (cppReadAmount st) = none := by
      simp [streamRead, dropEmptyChunks]
    rw [show (([] : List (List Char)).flatten) = [] from rfl, List.append_nil]
    exact cppRunFrom_closed hinv hclosed
  | succ N ih =>
    intro chunks st hm hinv
    rcases hr : streamRead chunks (cppReadAmount st) with _ | ⟨d, rest⟩
    · rw [streamRead_none_flatten hr, List.append_nil]
      exact cppRunFrom_closed hinv hr
    · have hflat := streamRead_some_flatten hr
      have hmeasure : chunksMeasure rest ≤ N := by
        have := streamRead_measure
          (Nat.lt_of_lt_of_le (by norm_num)
            (Nat.le_max_right (st.capacity - st.buffer.length) 1024)) hr
        omega
      obtain ⟨hhdr, hdone⟩ := hinv
      obtain ⟨hinv2, hbuf2⟩ := hdrInv_step hhdr d (cppCap2 st)
      rw [hflat, ← List.append_assoc, ← hbuf2]
      unfold cppRunFrom
      rw [cppReadLoop, hr]
      rcases hcl2 : (cppHeaderStep st d (cppCap2 st)).contentLength with _ | cl
      · simp only [hcl2]
        have hrec : cppRunFrom (cppHeaderStep st d (cppCap2 st)) rest =
            specPerform ((cppHeaderStep st d (cppCap2 st)).buffer ++ rest.flatten) := by
          apply ih rest _ hmeasure
          exact ⟨hinv2, fun n hn => by rw [hcl2] at hn; cases hn⟩
        unfold cppRunFrom at hrec
        exact hrec
      · simp only [hcl2]
        by_cases hbrk : (cppHeaderStep st d (cppCap2 st)).headerSize + cl ≤
            (cppHeaderStep st d (cppCap2 st)).buffer.length
        · simp only [if_pos hbrk]
          unfold HdrInv at hinv2
          rcases hfs2 : findSubIdx headerSep (cppHeaderStep st d (cppCap2 st)).buffer
            with _ | p
          · rw [hfs2] at hinv2
            rw [hinv2.2] at hcl2
            cases hcl2
          · rw [hfs2] at hinv2
            obtain ⟨hhs2, hcleq⟩ := hinv2
            have hple : p + 4 ≤ (cppHeaderStep st d (cppCap2 st)).buffer.length := by
              have := findSubIdx_bound hfs2
              simpa [headerSep] using this
            unfold specPerform
            simp only [findSubIdx_append hfs2]
            simp only [cppScanContentLength_extend hple, ← hcleq, hcl2]
            rw [if_pos (by
              have : ((cppHeaderStep st d (cppCap2 st)).buffer ++ rest.flatten).length =
                  (cppHeaderStep st d (cppCap2 st)).buffer.length + rest.flatten.length := by
                simp
              omega)]
            rw [cppParse_extend hple (by omega)]
            rw [show (⟨(cppHeaderStep st d (cppCap2 st)).buffer,
                       (cppHeaderStep st d (cppCap2 st)).capacity, p + 4,
                       some cl⟩ : CppReadState) = cppHeaderStep st d (cppCap2 st) by
              rw [← hhs2, ← hcl2]]
        · simp only [if_neg hbrk]
          have hrec : cppRunFrom (cppHeaderStep st d (cppCap2 st)) rest =
              specPerform ((cppHeaderStep st d (cppCap2 st)).buffer ++ rest.flatten) := by
            apply ih rest _ hmeasure
            refine ⟨hinv2, fun n hn => ?_⟩
            rw [hcl2] at hn
            cases hn
            omega
          unfold cppRunFrom at hrec
          exact hrec

/-- The C++ pipeline as a pure function of the full stream: the initial
state of `read_full_response` satisfies the invariant, so the
characterization applies from the start. -/
theorem cppPerformUnsafe_eq_spec (cap0 : Nat) (chunks : List (List Char)) :
    cppPerformUnsafe cap0 chunks = specPerform chunks.flatten := by
  have hbridge : cppPerformUnsafe cap0 chunks =
      cppRunFrom ⟨[], cap0, 0, none⟩ chunks := by
    unfold cppPerformUnsafe cppRunFrom
    rfl
  rw [hbridge]
  have hinv : ReadInv ⟨[], cap0, 0, none⟩ := by
    constructor
    · unfold HdrInv
      rw [show findSubIdx headerSep ([] : List Char) = none from rfl]
      exact ⟨rfl, rfl⟩
    · intro n hn
      cases hn
  have := cppRunFrom_spec (chunksMeasure chunks) chunks ⟨[], cap0, 0, none⟩
    le_rfl hinv
  simpa using this

/-- Inversion of a successful `parse_unsafe_response`: the response field
`content_length` is never assigned, and the body is the buffer bytes after
the header block, framed by the scanned content length when one is known. -/
theorem cppParse_ok_shape {st : CppReadState} {r : CppUnsafeResponse}
    (h : cppParseUnsafeResponse st = .ok r) :
    r.content_length = none ∧
    (∀ cl, st.contentLength = some cl →
      r.body = (st.buffer.drop st.headerSize).take cl) ∧
    (st.contentLength = none → r.body = st.buffer.drop st.headerSize) := by
  unfold cppParseUnsafeResponse at h
  repeat' (first | (split at h) | (dsimp only at h))
  all_goals first
    | (exact Except.noConfusion h)
    | (injection h with h2; subst h2;
       refine ⟨rfl, fun cl hcl => ?_, fun hcl => ?_⟩ <;> simp_all)

/-- The C++ engine is split-read invariant: for every response byte
sequence and every partition of it into successive chunks returned by the
transport's reads, the parsed result (status code, status message, header
list in order, body bytes, and the recorded content length) equals the
result of parsing the same byte sequence delivered in a single read —
whatever the engine's initial buffer capacities are.  (The C engine is
not: see the C8 theorem below.) -/
theorem cpp_split_read_invariance (cap0 cap1 : Nat) (chunks : List (List Char)) :
    cppPerformUnsafe cap0 chunks = cppPerformUnsafe cap1 [chunks.flatten] := by
  rw [cppPerformUnsafe_eq_spec, cppPerformUnsafe_eq_spec]
  simp

/-- The C++ engine frames by connection close correctly: for every
response stream that contains the header terminator and whose header block
carries no `Content-Length`, a successful `perform_request_unsafe` returns
precisely the stream bytes after the terminator as the body — the parse
completed only at `ConnectionClosed`, having consumed the whole stream —
and records no content length, neither in the engine (`content_length_`)
nor on the response.  (The C engine violates this framing: see the C7
theorem below.) -/
theorem cpp_connection_close_framing (cap0 : Nat) (chunks : List (List Char))
    (p : Nat) (r : CppUnsafeResponse) (clm : Option Nat)
    (hterm : findSubIdx headerSep chunks.flatten = some p)
    (hnoCL : cppScanContentLength chunks.flatten (p + 4) = none)
    (hok : cppPerformUnsafe cap0 chunks = .ok (r, clm)) :
    r.body = chunks.flatten.drop (p + 4) ∧ clm = none ∧
    r.content_length = none := by
  rw [cppPerformUnsafe_eq_spec] at hok
  unfold specPerform at hok
  simp only [hterm, hnoCL] at hok
  rcases hp : cppParseUnsafeResponse ⟨chunks.flatten, 0, p + 4, none⟩ with e | r0
  · rw [hp] at hok
    exact absurd hok (by simp [Except.map])
  · rw [hp] at hok
    simp only [Except.map, Except.ok.injEq, Prod.mk.injEq] at hok
    obtain ⟨rfl, rfl⟩ := hok
    have hshape := cppParse_ok_shape hp
    exact ⟨hshape.2.2 rfl, rfl, hshape.1⟩

/-- The C++ framing lemma at the spec's connection-close example, split
across two reads; the body is exactly the bytes after the terminator, no
content length recorded anywhere. -/
theorem cpp_connection_close_framing_check :
    ({ status_code := 200, status_message := ("OK").toList
       body := ("Full body.").toList
       headers := [(("Connection").toList, ("close").toList)]
       content_length := none } : CppUnsafeResponse).body =
      ((("HTTP/1.1 200 OK\r\nConnection: close\r\n\r\nFull ").toList ++
        ("body.").toList) ++ []).drop (34 + 4) ∧
    (none : Option Nat) = none ∧
    ({ status_code := 200, status_message := ("OK").toList
       body := ("Full body.").toList
       headers := [(("Connection").toList, ("close").toList)]
       content_length := none } : CppUnsafeResponse).content_length = none :=
  cpp_connection_close_framing 0
    [("HTTP/1.1 200 OK\r\nConnection: close\r\n\r\nFull ").toList,
     ("body.").toList] 34
    { status_code := 200, status_message := ("OK").toList
      body := ("Full body.").toList
      headers := [(("Connection").toList, ("close").toList)]
      content_length := none } none
    (by rfl) (by rfl)
    (by rw [cppPerformUnsafe_eq_spec]; rfl)

/-- The lying-content-length exchange of spec §8 and of the C++ test
`FailsGracefullyOnBadContentLength`: the peer declares `Content-Length: 100`
but closes after 10 body bytes. -/
def lyingResponseBytes : List Char :=
  ("HTTP/1.1 200 OK\r\nContent-Length: 100\r\n\r\nshort body").toList

/-- An allocation oracle that always succeeds with fresh addresses. -/
def demoAlloc : AllocOracle := fun i => some (4096 + 4096 * (i : Int))

/-- An empty request, as the C tests pass (`HttpRequest request = {};`). -/
def emptyCRequest : CHttpRequest :=
  { method := .get, path := [], body := none, headers := [] }

/-- C1: evaluation at the failing input.  When the peer closes short of its
declared `Content-Length: 100` after headers were parsed, the C
`http1_protocol_perform_request` returns *success* (`ErrorType.NONE`) with
the declared length 100 recorded but `body_len = 0` — not the
`HttpParseFailure` the spec requires — because the post-loop check of
`parse_response_unsafe` only covers the still-awaiting-headers case.  The
C++ engine returns `HttpParseFailure` on the same exchange, as the spec and
the repository's own test demand. -/
theorem c1_lying_content_length_code_bug :
    (match cPerformUnsafe demoAlloc 0 ⟨0, [], 0⟩ [lyingResponseBytes]
        emptyCRequest .copyWrite zeroCResponse with
     | some (.ok st) => some (st.res.status_code, st.res.content_length,
                              st.res.body_len)
     | _ => none) = some (200, 100, 0) ∧
    cppPerformUnsafe 0 [lyingResponseBytes] =
      .error (.client .httpParseFailure) :=
  ⟨by rfl, by rw [cppPerformUnsafe_eq_spec]; rfl⟩

/-- The header-storing loop keeps the first `32 - count` colon-bearing
lines. -/
theorem cHeadersLoop_eq (ts : List (List Char)) :
    ∀ count, cHeadersLoop ts count =
      (ts.filterMap cSplitHeader).take (32 - count) := by
  induction ts with
  | nil => intro count; simp [cHeadersLoop]
  | cons t rest ih =>
    intro count
    unfold cHeadersLoop
    by_cases hc : 32 ≤ count
    · simp [hc, show 32 - count = 0 from by omega]
    · simp only [hc, if_neg, if_false]
      rcases hsp : cSplitHeader t with _ | kv
      · simp [List.filterMap_cons, hsp, ih count]
      · simp only [List.filterMap_cons, hsp, ih (count + 1)]
        rw [show 32 - count = (32 - (count + 1)) + 1 from by omega]
        simp

/-- C10: for every header block, the parsed response stores exactly the
first 32 colon-bearing `strtok_r` lines after the status line — the parser
stops filling at 32, and both the excess lines and the colon-less lines are
silently dropped (`http_response_parse_headers` has no error channel), so
the header list never exceeds 32 entries. -/
theorem c10_header_cap (block : List Char) :
    (cParseHead block).headers =
      (((strtokTokens block).drop 1).filterMap cSplitHeader).take 32 ∧
    (cParseHead block).headers.length ≤ 32 := by
  have hmain : (cParseHead block).headers =
      (((strtokTokens block).drop 1).filterMap cSplitHeader).take 32 := by
    unfold cParseHead
    rcases hts : strtokTokens block with _ | ⟨t0, rest⟩
    · simp
    · simp only [List.drop_succ_cons, List.drop_zero]
      exact cHeadersLoop_eq rest 0
  refine ⟨hmain, ?_⟩
  rw [hmain]
  simpa using List.length_take_le 32 _

/-- The rebasing arithmetic of the content-length reallocation (lines
159–167 of `parse_response_unsafe`): when the backing store moves (and
`realloc` has preserved the byte contents), adding `new_data - old_data`
to the status message and every header key and value leaves each view
denoting the same bytes as before the move, and every rebased view sits at
or after the new base.  Only that one reallocation performs this rebase —
the top-of-loop growth reallocation does not, which is the C2 bug proved
below. -/
theorem rebase_block_preserves_views (oldBuf newBuf : CBuffer) (v : CResponseViews)
    (hdata : newBuf.data = oldBuf.data)
    (hmsg : oldBuf.base ≤ v.status_message)
    (hhdr : ∀ kv ∈ v.headerPtrs, oldBuf.base ≤ kv.1 ∧ oldBuf.base ≤ kv.2) :
    (viewBytes newBuf (rebaseViews oldBuf.base newBuf.base v).status_message =
       viewBytes oldBuf v.status_message ∧
     newBuf.base ≤ (rebaseViews oldBuf.base newBuf.base v).status_message) ∧
    List.Forall₂ (fun kv kv2 =>
        (viewBytes newBuf kv2.1 = viewBytes oldBuf kv.1 ∧
         viewBytes newBuf kv2.2 = viewBytes oldBuf kv.2) ∧
        newBuf.base ≤ kv2.1 ∧ newBuf.base ≤ kv2.2)
      v.headerPtrs (rebaseViews oldBuf.base newBuf.base v).headerPtrs := by
  have key : ∀ a : Int, oldBuf.base ≤ a →
      viewBytes newBuf (rebasePtr oldBuf.base newBuf.base a) =
        viewBytes oldBuf a ∧
      newBuf.base ≤ rebasePtr oldBuf.base newBuf.base a := by
    intro a ha
    unfold viewBytes rebasePtr
    refine ⟨?_, by omega⟩
    rw [hdata]
    congr 1
    omega
  refine ⟨key _ hmsg, ?_⟩
  unfold rebaseViews
  simp only
  have : ∀ (l : List (Int × Int)),
      (∀ kv ∈ l, oldBuf.base ≤ kv.1 ∧ oldBuf.base ≤ kv.2) →
      List.Forall₂ (fun kv kv2 =>
        (viewBytes newBuf kv2.1 = viewBytes oldBuf kv.1 ∧
         viewBytes newBuf kv2.2 = viewBytes oldBuf kv.2) ∧
        newBuf.base ≤ kv2.1 ∧ newBuf.base ≤ kv2.2)
        l (l.map (fun kv => (rebasePtr oldBuf.base newBuf.base kv.1,
                             rebasePtr oldBuf.base newBuf.base kv.2))) := by
    intro l
    induction l with
    | nil => intro _; exact List.Forall₂.nil
    | cons kv rest ih =>
      intro hall
      have h1 := hall kv (by simp)
      refine List.Forall₂.cons ?_ (ih (fun x hx => hall x (by simp [hx])))
      exact ⟨⟨(key _ h1.1).1, (key _ h1.2).1⟩, (key _ h1.1).2, (key _ h1.2).2⟩
  exact this v.headerPtrs hhdr

/-- The rebasing arithmetic at a concrete move of the store from base 100
to base 5000 over a parsed header block with three outstanding views. -/
theorem rebase_block_preserves_views_check :
    (viewBytes ⟨5000, ("OK\x00Content-Length: 12").toList, 64⟩
       (rebaseViews 100 5000 ⟨100, [(103, 120)]⟩).status_message =
     viewBytes ⟨100, ("OK\x00Content-Length: 12").toList, 21⟩ 100 ∧
     (5000 : Int) ≤ (rebaseViews 100 5000 ⟨100, [(103, 120)]⟩).status_message) ∧
    List.Forall₂ (fun kv kv2 =>
        (viewBytes ⟨5000, ("OK\x00Content-Length: 12").toList, 64⟩ kv2.1 =
           viewBytes ⟨100, ("OK\x00Content-Length: 12").toList, 21⟩ kv.1 ∧
         viewBytes ⟨5000, ("OK\x00Content-Length: 12").toList, 64⟩ kv2.2 =
           viewBytes ⟨100, ("OK\x00Content-Length: 12").toList, 21⟩ kv.2) ∧
        (5000 : Int) ≤ kv2.1 ∧ (5000 : Int) ≤ kv2.2)
      [((103 : Int), (120 : Int))]
      (rebaseViews 100 5000 ⟨100, [(103, 120)]⟩).headerPtrs :=
  rebase_block_preserves_views ⟨100, ("OK\x00Content-Length: 12").toList, 21⟩
    ⟨5000, ("OK\x00Content-Length: 12").toList, 64⟩ ⟨100, [(103, 120)]⟩
    rfl (by norm_num)
    (by intro kv hkv; simp at hkv; subst hkv; norm_num)

/-- C3: `parse_response_safe` on any failing parse (the temporary buffer
swapped in for the request): the typed error propagates unchanged, the
engine's original buffer — base address, contents, length and capacity — is
restored exactly, and the partially filled temporary buffer is freed when it
holds an allocation (and only then, so nothing leaks and nothing invalid is
freed).  Moreover, with a failing allocator the whole request fails as a
typed `HttpParseFailure` (ErrorType HTTPC) with the engine buffer restored
and nothing to free — allocation failure is not a crash. -/
theorem c3_safe_failure_restores_buffer (alloc : AllocOracle) (idx : Nat)
    (origBuf : CBuffer) (chunks : List (List Char)) (res0 : CResponse) :
    (∀ e stFail,
      parse_response_unsafe alloc idx ⟨0, [], 0⟩ chunks res0 =
        some (.error (e, stFail)) →
      parse_response_safe alloc idx origBuf chunks res0 =
        some { err := e, res := stFail.res, engineBuf := origBuf
               freed := if 0 < stFail.buf.capacity then [stFail.buf.base]
                        else [] }) ∧
    ((∀ i, alloc i = none) →
      parse_response_safe alloc idx origBuf chunks res0 =
        some { err := errParseFailure
               res := { res0 with owned_buffer := none }
               engineBuf := origBuf, freed := [] }) := by
  constructor
  · intro e stFail hfail
    unfold parse_response_safe
    rw [hfail]
  · intro halloc
    unfold parse_response_safe parse_response_unsafe
    rw [show cFuelFor chunks = chunksMeasure chunks + 1 + 1 from rfl]
    unfold cParseLoop cGrow
    simp [halloc idx]

/-- An allocator that serves the first request (base 7777) and then fails —
the C3 witness scenario: the headers of a 43-byte response declare
`Content-Length: 5000`, so the mid-parse reallocation to `total_size + 1`
fails. -/
def c3FailAlloc : AllocOracle := fun i => if i == 0 then some 7777 else none

/-- The response bytes of the C3 witness scenario. -/
def bigCLResponse : List Char :=
  ("HTTP/1.1 200 OK\r\nContent-Length: 5000\r\n\r\nab").toList

/-- The engine state at the failing reallocation of the C3 witness. -/
def c3FailState : CParseState :=
  { buf := ⟨7777, bigCLResponse, 2048⟩, stale := [], chunks := []
    allocIdx := 1, headersParsed := true, headerLen := 41
    contentLength := 5000
    res := { status_code := 200, status_message := ("OK").toList
             headers := [(("Content-Length").toList, ("5000").toList)]
             views_base := 7777, body_addr := 0, body_len := 0
             content_length := 5000, owned_buffer := none } }

/-- Witness for C3: the engine buffer `⟨123, "abc", 2048⟩` is restored
untouched after the failing parse and the partially filled 2048-byte
temporary at base 7777 is freed. -/
theorem c3_safe_failure_restores_buffer_witness :
    parse_response_safe c3FailAlloc 0 ⟨123, ("abc").toList, 2048⟩
        [bigCLResponse] zeroCResponse =
      some { err := errParseFailure
             res := c3FailState.res
             engineBuf := ⟨123, ("abc").toList, 2048⟩
             freed := if 0 < c3FailState.buf.capacity
                      then [c3FailState.buf.base] else [] } :=
  (c3_safe_failure_restores_buffer c3FailAlloc 0 ⟨123, ("abc").toList, 2048⟩
      [bigCLResponse] zeroCResponse).1 errParseFailure c3FailState
    (by rfl)

/-- With a never-failing allocator, an append succeeds and the buffer
content is exactly the old content followed by the appended bytes. -/
theorem growable_buffer_append_ok (alloc : AllocOracle)
    (halloc : ∀ i, (alloc i).isSome = true) (idx : Nat) (buf : CBuffer)
    (bytes : List Char) :
    ∃ b cap idx2, growable_buffer_append alloc idx buf bytes =
      .ok (⟨b, buf.data ++ bytes, cap⟩, idx2) := by
  unfold growable_buffer_append
  by_cases hg : buf.capacity < buf.data.length + bytes.length
  · rcases ha : alloc idx with _ | b
    · have := halloc idx
      rw [ha] at this
      cases this
    · refine ⟨b, doubleUntil (if buf.capacity == 0 then 2048
        else buf.capacity * 2) (buf.data.length + bytes.length), idx + 1, ?_⟩
      simp [hg, ha]
  · refine ⟨buf.base, buf.capacity, idx, ?_⟩
    simp [hg]

/-- With a never-failing allocator and header lines short enough for their
1024-byte `snprintf` buffers, the header-line loop appends exactly the
formatted lines in input order. -/
theorem appendHeaderLines_ok (alloc : AllocOracle)
    (halloc : ∀ i, (alloc i).isSome = true) :
    ∀ (hs : List (List Char × List Char)) (idx : Nat) (buf : CBuffer),
      (∀ kv ∈ hs, (kv.1 ++ (": ".toList) ++ kv.2 ++ crlf).length ≤ 1023) →
      ∃ b cap idx2, appendHeaderLines alloc idx buf hs =
        .ok (⟨b, buf.data ++
          (hs.map (fun kv => kv.1 ++ (": ".toList) ++ kv.2 ++ crlf)).flatten,
          cap⟩, idx2) := by
  intro hs
  induction hs with
  | nil =>
    intro idx buf _
    exact ⟨buf.base, buf.capacity, idx, by simp [appendHeaderLines]⟩
  | cons kv rest ih =>
    intro idx buf hfit
    obtain ⟨k, v⟩ := kv
    have hline : snprintfBytes 1024 (k ++ (": ".toList) ++ v ++ crlf) =
        k ++ (": ".toList) ++ v ++ crlf := by
      unfold snprintfBytes
      refine List.take_of_length_le ?_
      have := hfit (k, v) (by simp)
      simp only at this
      omega
    obtain ⟨b1, cap1, idx1, happ⟩ :=
      growable_buffer_append_ok alloc halloc idx buf
        (snprintfBytes 1024 (k ++ (": ".toList) ++ v ++ crlf))
    obtain ⟨b2, cap2, idx2, hrest⟩ :=
      ih idx1 ⟨b1, buf.data ++ snprintfBytes 1024
        (k ++ (": ".toList) ++ v ++ crlf), cap1⟩
        (fun x hx => hfit x (by simp [hx]))
    refine ⟨b2, cap2, idx2, ?_⟩
    rw [hline] at happ hrest
    simp only [appendHeaderLines, bind, Except.bind, hline]
    simp only [happ]
    simp only [hrest]
    simp [List.append_assoc, List.cons_append]

/-- With a never-failing allocator and a request line short enough for its
2048-byte `snprintf` buffer, `build_request_headers_in_buffer` produces
exactly the request line, the header lines in order, and the blank line. -/
theorem build_request_headers_ok (alloc : AllocOracle)
    (halloc : ∀ i, (alloc i).isSome = true) (idx : Nat) (buf : CBuffer)
    (req : CHttpRequest)
    (hline : (methodStr req.method ++ [' '] ++ req.path ++
      (" HTTP/1.1\r\n".toList)).length ≤ 2047)
    (hhdrs : ∀ kv ∈ req.headers,
      (kv.1 ++ (": ".toList) ++ kv.2 ++ crlf).length ≤ 1023) :
    ∃ b cap idx2, build_request_headers_in_buffer alloc idx buf req =
      .ok (⟨b, methodStr req.method ++ [' '] ++ req.path ++
        (" HTTP/1.1\r\n".toList) ++
        (req.headers.map
          (fun kv => kv.1 ++ (": ".toList) ++ kv.2 ++ crlf)).flatten ++
        crlf, cap⟩, idx2) := by
  have hl : snprintfBytes 2048 (methodStr req.method ++ [' '] ++ req.path ++
      (" HTTP/1.1\r\n".toList)) =
      methodStr req.method ++ [' '] ++ req.path ++ (" HTTP/1.1\r\n".toList) := by
    unfold snprintfBytes
    exact List.take_of_length_le (by omega)
  obtain ⟨b1, cap1, idx1, happ⟩ :=
    growable_buffer_append_ok alloc halloc idx { buf with data := [] }
      (snprintfBytes 2048 (methodStr req.method ++ [' '] ++ req.path ++
        (" HTTP/1.1\r\n".toList)))
  obtain ⟨b2, cap2, idx2, hhdr⟩ :=
    appendHeaderLines_ok alloc halloc req.headers idx1
      ⟨b1, ([] : List Char) ++ snprintfBytes 2048 (methodStr req.method ++
        [' '] ++ req.path ++ (" HTTP/1.1\r\n".toList)), cap1⟩ hhdrs
  obtain ⟨b3, cap3, idx3, hblank⟩ :=
    growable_buffer_append_ok alloc halloc idx2
      ⟨b2, (([] : List Char) ++ snprintfBytes 2048 (methodStr req.method ++
        [' '] ++ req.path ++ (" HTTP/1.1\r\n".toList))) ++
        (req.headers.map
          (fun kv => kv.1 ++ (": ".toList) ++ kv.2 ++ crlf)).flatten, cap2⟩
      crlf
  refine ⟨b3, cap3, idx3, ?_⟩
  simp only [List.nil_append] at hhdr hblank
  rw [hl] at happ hhdr hblank
  unfold build_request_headers_in_buffer
  simp only [bind, Except.bind, hl]
  simp only [happ]
  simp only [List.nil_append]
  simp only [hhdr]
  simp only [hblank]
  try simp [List.append_assoc, List.cons_append]

/-- C4: for every request whose formatted request line and header lines fit
their `snprintf` stack buffers (the only regime in which the C code is
defined) and any allocator that serves the appends, serialization writes
exactly `"<METHOD> <path> HTTP/1.1\r\n"`, then each header as
`"<key>: <value>\r\n"` in input order, then `"\r\n"`, then (for a POST with
a body) the body bytes — `specRequestBytes`. -/
theorem c4_serialization_exact (alloc : AllocOracle)
    (halloc : ∀ i, (alloc i).isSome = true) (idx : Nat) (buf : CBuffer)
    (req : CHttpRequest) (bodyLen : Nat)
    (hline : (methodStr req.method ++ [' '] ++ req.path ++
      (" HTTP/1.1\r\n".toList)).length ≤ 2047)
    (hhdrs : ∀ kv ∈ req.headers,
      (kv.1 ++ (": ".toList) ++ kv.2 ++ crlf).length ≤ 1023) :
    (build_request_in_buffer alloc idx buf req bodyLen).map
      (fun r => r.1.data) = .ok (specRequestBytes req bodyLen) := by
  obtain ⟨b1, cap1, idx1, hhead⟩ :=
    build_request_headers_ok alloc halloc idx buf req hline hhdrs
  unfold build_request_in_buffer
  simp only [bind, Except.bind]
  simp only [hhead]
  rcases hb : req.body with _ | bodyB
  · rcases hm : req.method <;>
      simp [specRequestBytes, hb, hm, Except.map, List.append_assoc,
        List.cons_append]
  · rcases hm : req.method
    · simp [specRequestBytes, hb, hm, Except.map, List.append_assoc,
        List.cons_append]
    · obtain ⟨b2, cap2, idx2, happ⟩ :=
        growable_buffer_append_ok alloc halloc idx1
          ⟨b1, methodStr req.method ++ [' '] ++ req.path ++
            (" HTTP/1.1\r\n".toList) ++
            (req.headers.map
              (fun kv => kv.1 ++ (": ".toList) ++ kv.2 ++ crlf)).flatten ++
            crlf, cap1⟩ (bodyB.take bodyLen)
      rw [hm] at happ
      simp only [hb, hm]
      simp only [happ]
      simp [specRequestBytes, hb, hm, Except.map, List.append_assoc,
        List.cons_append]

/-- The spec's serialization example. -/
def postExample : CHttpRequest :=
  { method := .post, path := ("/api/submit").toList
    body := some (("key=value").toList)
    headers := [(("Host").toList, ("test-server").toList),
                (("Content-Length").toList, ("9").toList)] }

set_option maxRecDepth 8000 in
/-- Witness for C4: the spec's example request serializes to exactly the
claimed byte string (with `body_len` taken from its `Content-Length` header
as `perform_request` does). -/
theorem c4_serialization_exact_witness :
    (build_request_in_buffer demoAlloc 0 ⟨0, [], 0⟩ postExample
        (get_content_length_from_request postExample)).map
      (fun r => r.1.data) =
      .ok (("POST /api/submit HTTP/1.1\r\nHost: test-server\r\nContent-Length: 9\r\n\r\nkey=value").toList) := by
  have h := c4_serialization_exact demoAlloc (fun i => rfl) 0 ⟨0, [], 0⟩
    postExample (get_content_length_from_request postExample)
    (by decide) (by decide)
  rw [h]
  rfl

/-- C5: for every POST request with a body, the byte sequence handed to the
transport under the vectored-write policy (one `writev` of the header block
and the body) is identical to the byte sequence handed under the copy-write
policy (one `write` of the buffer with the body appended) — same engine
buffer, same allocator. -/
theorem c5_write_policy_equivalence (alloc : AllocOracle)
    (halloc : ∀ i, (alloc i).isSome = true) (idx : Nat) (buf : CBuffer)
    (req : CHttpRequest) (bodyB : List Char)
    (hpost : req.method = .post) (hbody : req.body = some bodyB) :
    (http1_io_segments alloc idx buf req .vectoredWrite).map
      (fun r => r.1.flatten) =
    (http1_io_segments alloc idx buf req .copyWrite).map
      (fun r => r.1.flatten) := by
  unfold http1_io_segments build_request_in_buffer
  rw [hpost]
  simp only [bind, Except.bind]
  rcases hb : build_request_headers_in_buffer alloc idx buf req with e | ⟨bufH, idxH⟩
  · simp
  · obtain ⟨b2, cap2, idx2, happ⟩ :=
      growable_buffer_append_ok alloc halloc idxH bufH
        (bodyB.take (get_content_length_from_request req))
    simp only [hbody]
    rw [happ]
    simp [Except.map]

/-- Witness for C5: the spec's example POST produces byte-identical wire
data under both write policies. -/
theorem c5_write_policy_equivalence_witness :
    (http1_io_segments demoAlloc 0 ⟨0, [], 0⟩ postExample .vectoredWrite).map
      (fun r => r.1.flatten) =
    (http1_io_segments demoAlloc 0 ⟨0, [], 0⟩ postExample .copyWrite).map
      (fun r => r.1.flatten) :=
  c5_write_policy_equivalence demoAlloc (fun i => rfl) 0 ⟨0, [], 0⟩
    postExample (("key=value").toList) rfl rfl

/-- C6: façade validation in both implementations.  For the C façade
(`httpc.c`): `get` rejects any request with a (non-NULL) body, `post`
rejects any request without a body and any request lacking a
case-insensitive `Content-Length` header — each with
`INVALID_REQUEST_SYNTAX`, and each rejection returns the transport script
untouched (no I/O was performed, no partial state).  For the C++ façade
(`HttpClient`): `get` rejects a non-empty body, `post` rejects an empty
body and a missing case-insensitive `Content-Length` header with
`InvalidRequest` — the validators run before the protocol engine is ever
invoked. -/
theorem c6_facade_validation (alloc : AllocOracle) (idx : Nat) (buf : CBuffer)
    (chunks : List (List Char)) (req : CHttpRequest) (ioPol : CIoPolicy)
    (res0 : CResponse) (creq : CppHttpRequest) :
    (req.body.isSome = true →
      http_client_get alloc idx buf chunks req ioPol res0 =
        (some (.error errInvalidRequest), chunks)) ∧
    (req.body = none →
      http_client_post alloc idx buf chunks req ioPol res0 =
        (some (.error errInvalidRequest), chunks)) ∧
    (req.headers.find? (fun kv => strCaseEq kv.1 ("Content-Length".toList))
        = none →
      http_client_post alloc idx buf chunks req ioPol res0 =
        (some (.error errInvalidRequest), chunks)) ∧
    (creq.body ≠ [] →
      cppGetValidate creq = .error (.client .invalidRequest)) ∧
    (creq.body = [] →
      cppPostValidate creq = .error (.client .invalidRequest)) ∧
    (creq.headers.any (fun kv => strCaseEq kv.1 ("Content-Length".toList))
        = false →
      cppPostValidate creq = .error (.client .invalidRequest)) := by
  refine ⟨?_, ?_, ?_, ?_, ?_, ?_⟩
  · intro hbody
    unfold http_client_get http_client_get_validate
    simp [hbody]
  · intro hbody
    unfold http_client_post http_client_post_validate
    simp [hbody]
  · intro hcl
    unfold http_client_post http_client_post_validate
    have hcl2 : List.find? (fun kv => strCaseEq kv.1
        ['C', 'o', 'n', 't', 'e', 'n', 't', '-', 'L', 'e', 'n', 'g', 't', 'h'])
        req.headers = none := hcl
    rcases hb : req.body with _ | b
    · simp
    · simp [hcl2]
  · intro hbody
    unfold cppGetValidate
    simp [List.isEmpty_iff, hbody]
  · intro hbody
    unfold cppPostValidate
    simp [List.isEmpty_iff, hbody]
  · intro hcl
    unfold cppPostValidate
    have hcl2 : List.any creq.headers (fun kv => strCaseEq kv.1
        ['C', 'o', 'n', 't', 'e', 'n', 't', '-', 'L', 'e', 'n', 'g', 't', 'h'])
        = false := hcl
    by_cases hb : creq.body.isEmpty
    · simp [hb]
    · simp [hb, hcl2]

/-- Witness requests for C6. -/
def reqWithBody : CHttpRequest :=
  { method := .get, path := ("/").toList, body := some (("x").toList)
    headers := [] }

def reqNoBody : CHttpRequest :=
  { method := .post, path := ("/").toList, body := none, headers := [] }

def reqNoCL : CHttpRequest :=
  { method := .post, path := ("/").toList, body := some (("x").toList)
    headers := [(("Host").toList, ("h").toList)] }

def creqWithBody : CppHttpRequest :=
  { method := .get, path := ("/").toList, body := ("x").toList
    headers := [] }

def creqEmptyBody : CppHttpRequest :=
  { method := .post, path := ("/").toList, body := [], headers := [] }

def creqNoCL : CppHttpRequest :=
  { method := .post, path := ("/").toList, body := ("x").toList
    headers := [(("Host").toList, ("h").toList)] }

/-- Witness for C6: each façade rejection at a concrete request, with the
transport script returned untouched by the C façade. -/
theorem c6_facade_validation_witness :
    http_client_get demoAlloc 0 ⟨0, [], 0⟩ [("z").toList] reqWithBody
        .copyWrite zeroCResponse =
      (some (.error errInvalidRequest), [("z").toList]) ∧
    http_client_post demoAlloc 0 ⟨0, [], 0⟩ [("z").toList] reqNoBody
        .copyWrite zeroCResponse =
      (some (.error errInvalidRequest), [("z").toList]) ∧
    http_client_post demoAlloc 0 ⟨0, [], 0⟩ [("z").toList] reqNoCL
        .copyWrite zeroCResponse =
      (some (.error errInvalidRequest), [("z").toList]) ∧
    cppGetValidate creqWithBody = .error (.client .invalidRequest) ∧
    cppPostValidate creqEmptyBody = .error (.client .invalidRequest) ∧
    cppPostValidate creqNoCL = .error (.client .invalidRequest) :=
  ⟨(c6_facade_validation demoAlloc 0 ⟨0, [], 0⟩ [("z").toList] reqWithBody
      .copyWrite zeroCResponse creqWithBody).1 (by rfl),
   (c6_facade_validation demoAlloc 0 ⟨0, [], 0⟩ [("z").toList] reqNoBody
      .copyWrite zeroCResponse creqWithBody).2.1 (by rfl),
   (c6_facade_validation demoAlloc 0 ⟨0, [], 0⟩ [("z").toList] reqNoCL
      .copyWrite zeroCResponse creqWithBody).2.2.1 (by rfl),
   (c6_facade_validation demoAlloc 0 ⟨0, [], 0⟩ [("z").toList] reqNoCL
      .copyWrite zeroCResponse creqWithBody).2.2.2.1 (by decide),
   (c6_facade_validation demoAlloc 0 ⟨0, [], 0⟩ [("z").toList] reqNoCL
      .copyWrite zeroCResponse creqEmptyBody).2.2.2.2.1 (by rfl),
   (c6_facade_validation demoAlloc 0 ⟨0, [], 0⟩ [("z").toList] reqNoCL
      .copyWrite zeroCResponse creqNoCL).2.2.2.2.2 (by rfl)⟩

/-! ## The C engine's stale-`strstr` and un-rebased-growth defects

Concrete runs of the C model exhibiting the two defects the claims C2, C7,
C8 and C9 founder on: the `strstr` scan past `len` into the retained
request bytes, and the growth reallocation that moves the buffer without
rebasing the outstanding views. -/

/-- The serialized request retained in the engine buffer before the C2
run. -/
def c2PriorReq : List Char := ("GET / HTTP/1.1\r\n\r\n").toList

/-- A 25-byte header block with one header and no `Content-Length`. -/
def c2Hdr : List Char := ("HTTP/1.1 200 OK\r\nA: b\r\n\r\n").toList

/-- Delivery for the C2 run: the full header block, then body bytes that
push `len` to the 32-byte capacity, then more body. -/
def c2Chunks : List (List Char) := [c2Hdr, ("aaaaaaa").toList, ("bbb").toList]

/-- C2: refuted on the code — the top-of-loop growth reallocation (lines
111–120 of `parse_response_unsafe`, the claim's second cited source) moves
the backing store without rebasing any outstanding view.  In this run the
headers of a no-`Content-Length` response are parsed while the buffer sits
at base 500; the body then fills the 32-byte capacity, the growth `realloc`
moves the store to base 4096, and the parse succeeds with the body views
at the new base but the status-message and header views still planted at
the old base 500 — dangling references, exactly what the claim says cannot
happen. -/
theorem c2_growth_realloc_dangles_views :
    (match parse_response_unsafe demoAlloc 0 ⟨500, c2PriorReq, 32⟩ c2Chunks
        zeroCResponse with
     | some (.ok st) => some (st.buf.base, st.res.views_base,
         st.res.body_addr, st.res.status_message, st.res.headers)
     | _ => none) =
      some (4096, 500, 4121, ("OK").toList,
        [(("A").toList, ("b").toList)]) ∧
    (500 : Int) ≠ 4096 :=
  ⟨by rfl, by decide⟩

/-- The spec's §8 connection-close exchange. -/
def c78Response : List Char :=
  ("HTTP/1.1 200 OK\r\nConnection: close\r\n\r\nFull body.").toList

/-- C7: refuted on the C engine — its `strstr` runs past `len` into the
serialized request retained in the buffer (which ends `"\r\n\r\n"`), so
delivering the spec's connection-close response with a 15-byte-short first
chunk makes the scan find a false terminator inside the stale request
tail: the run returns status 21 and a body that still contains the
`Connection` header line — not the bytes after the response's header
terminator at offset 34, which are exactly `"Full body."`.  The C++ engine
(the claim's other cited source) parses the same delivery correctly. -/
theorem c7_connection_close_framing_code_bug :
    findSubIdx headerSep c78Response = some 34 ∧
    c78Response.drop (34 + 4) = ("Full body.").toList ∧
    (match cPerformUnsafe demoAlloc 0 ⟨0, [], 0⟩
        [c78Response.take 10, c78Response.drop 10] emptyCRequest .copyWrite
        zeroCResponse with
     | some (.ok st) => some (st.res.status_code,
         st.buf.data.drop st.headerLen, st.contentLength)
     | _ => none) =
      some (21, ("Connection: close\r\n\r\nFull body.").toList, -1) ∧
    ("Connection: close\r\n\r\nFull body.").toList ≠
      ("Full body.").toList ∧
    cppPerformUnsafe 0 [c78Response.take 10, c78Response.drop 10] =
      .ok ({ status_code := 200, status_message := ("OK").toList
             body := ("Full body.").toList
             headers := [(("Connection").toList, ("close").toList)]
             content_length := none }, none) :=
  ⟨by rfl, by rfl, by rfl, by decide,
   by rw [cppPerformUnsafe_eq_spec]; rfl⟩

/-- C8: refuted on the C engine — the same stale-`strstr` defect makes the
parse depend on the chunk boundaries: the spec's connection-close response
split `10 / 38` parses to status 21 with no headers and a 31-byte body,
while the same bytes in a single read parse to status 200 with the
`Connection` header and body `"Full body."`.  The C++ engine (the claim's
other cited source) is split-read invariant on the same delivery. -/
theorem c8_split_read_divergence_code_bug :
    (match cPerformUnsafe demoAlloc 0 ⟨0, [], 0⟩
        [c78Response.take 10, c78Response.drop 10] emptyCRequest .copyWrite
        zeroCResponse with
     | some (.ok st) => some (st.res.status_code, st.res.headers,
         st.buf.data.drop st.headerLen)
     | _ => none) =
      some (21, [], ("Connection: close\r\n\r\nFull body.").toList) ∧
    (match cPerformUnsafe demoAlloc 0 ⟨0, [], 0⟩ [c78Response] emptyCRequest
        .copyWrite zeroCResponse with
     | some (.ok st) => some (st.res.status_code, st.res.headers,
         st.buf.data.drop st.headerLen)
     | _ => none) =
      some (200, [(("Connection").toList, ("close").toList)],
        ("Full body.").toList) ∧
    ((21 : Int), ([] : List (List Char × List Char)),
        ("Connection: close\r\n\r\nFull body.").toList) ≠
      ((200 : Int), [(("Connection").toList, ("close").toList)],
        ("Full body.").toList) ∧
    cppPerformUnsafe 0 [c78Response.take 10, c78Response.drop 10] =
      cppPerformUnsafe 0 [c78Response] :=
  ⟨by rfl, by rfl, by decide,
   by rw [cppPerformUnsafe_eq_spec, cppPerformUnsafe_eq_spec]; rfl⟩

/-- A transport read that delivers a whole non-empty pending chunk. -/
theorem streamRead_full {c : List Char} {rest : List (List Char)} {n : Nat}
    (hne : c ≠ []) (hlen : c.length ≤ n) :
    streamRead (c :: rest) n = some (c, rest) := by
  unfold streamRead
  rcases c with _ | ⟨x, xs⟩
  · exact absurd rfl hne
  · simp only [dropEmptyChunks]
    simp [List.take_of_length_le hlen, List.drop_eq_nil_of_le hlen]

/-- The C9 run: a no-`Content-Length` response whose headers arrive first
(25 bytes), followed by enough body to fill the swapped-in 2048-byte safe
parse buffer exactly, followed by a little more. -/
def c9HdrChunk : List Char := ("HTTP/1.1 200 OK\r\nA: b\r\n\r\n").toList

def c9Fill : List Char := List.replicate 2023 'a'

def c9Tail : List Char := ("tail").toList

def c9Chunks : List (List Char) := [c9HdrChunk, c9Fill, c9Tail]

/-- The engine buffer after serializing the empty GET of the C9 run. -/
def c9ReqBuf : CBuffer := ⟨600, ("GET  HTTP/1.1\r\n\r\n").toList, 2048⟩

/-- The parse state after the first loop iteration of the C9 run: the safe
parse buffer grew to 2048 bytes at address 4096, the header block arrived
and was parsed, and every view was planted at base 4096. -/
def c9Res1 : CResponse :=
  { status_code := 200, status_message := ("OK").toList
    headers := [(("A").toList, ("b").toList)], views_base := 4096
    body_addr := 0, body_len := 0, content_length := 0
    owned_buffer := none }

def c9St0 : CParseState :=
  { buf := ⟨0, [], 0⟩, stale := [], chunks := c9Chunks, allocIdx := 0
    headersParsed := false, headerLen := 0, contentLength := -1
    res := { zeroCResponse with content_length := 0, owned_buffer := none } }

def c9St1 : CParseState :=
  { buf := ⟨4096, c9HdrChunk, 2048⟩, stale := [], chunks := [c9Fill, c9Tail]
    allocIdx := 1, headersParsed := true, headerLen := 25
    contentLength := -1, res := c9Res1 }

/-- After the second iteration: the fill bytes brought `len` to the 2048
capacity. -/
def c9St2 : CParseState :=
  { c9St1 with buf := ⟨4096, c9HdrChunk ++ c9Fill, 2048⟩, chunks := [c9Tail] }

/-- The grown buffer of the third iteration, before its read: the growth
realloc moved the store to address 8192 — without touching `views_base`. -/
def c9St2g : CParseState :=
  { c9St1 with
    buf := ⟨8192, c9HdrChunk ++ c9Fill, 4096⟩,
    chunks := [c9Tail],
    allocIdx := 2 }

/-- After the third iteration: the tail arrived into the relocated
buffer. -/
def c9St3 : CParseState :=
  { c9St1 with
    buf := ⟨8192, (c9HdrChunk ++ c9Fill) ++ c9Tail, 4096⟩,
    chunks := [],
    allocIdx := 2 }

theorem c9Fill_length : c9Fill.length = 2023 :=
  List.length_replicate 2023 'a'

theorem c9_data2_length : (c9HdrChunk ++ c9Fill).length = 2048 := by
  rw [List.length_append, show c9HdrChunk.length = 25 from rfl, c9Fill_length]

theorem c9_data3_length : ((c9HdrChunk ++ c9Fill) ++ c9Tail).length = 2052 := by
  rw [List.length_append, c9_data2_length, show c9Tail.length = 4 from rfl]

set_option maxRecDepth 4000 in
/-- Iteration 1 of the C9 run: grow from empty to 2048 at address 4096,
read the header chunk, parse the headers, plant the views at 4096. -/
theorem c9_step1 (n : Nat) :
    cParseLoop demoAlloc (n + 1) c9St0 = cParseLoop demoAlloc n c9St1 := rfl

/-- Iteration 2: the fill bytes arrive, `len` reaches the capacity. -/
theorem c9_step2 (n : Nat) :
    cParseLoop demoAlloc (n + 1) c9St1 = cParseLoop demoAlloc n c9St2 := by
  have hg : cGrow demoAlloc c9St1 = .ok c9St1 := by
    unfold cGrow
    rw [if_neg (by rw [show c9St1.buf.data.length = 25 from rfl]; decide)]
  have hrd : streamRead c9St1.chunks
      (c9St1.buf.capacity - c9St1.buf.data.length) = some (c9Fill, [c9Tail]) := by
    rw [show c9St1.chunks = [c9Fill, c9Tail] from rfl,
      show c9St1.buf.capacity - c9St1.buf.data.length = 2023 from rfl]
    exact streamRead_full
      (by intro hc; have h2 := congrArg List.length hc
          rw [c9Fill_length] at h2; simp at h2)
      (le_of_eq c9Fill_length)
  conv_lhs => rw [cParseLoop]
  simp only [hg, hrd, show c9St1.stale = ([] : List Char) from rfl,
    List.drop_nil]
  rfl

/-- Iteration 3: the buffer is full, so the growth realloc moves the store
to 8192 (no view rebasing — faithfully), then the tail arrives. -/
theorem c9_step3 (n : Nat) :
    cParseLoop demoAlloc (n + 1) c9St2 = cParseLoop demoAlloc n c9St3 := by
  have hg : cGrow demoAlloc c9St2 = .ok c9St2g := by
    unfold cGrow
    rw [if_pos (show (c9St2.buf.data.length == c9St2.buf.capacity) = true by
      rw [show c9St2.buf.data.length = (c9HdrChunk ++ c9Fill).length from rfl,
        c9_data2_length]
      rfl)]
    rfl
  have hrd : streamRead c9St2g.chunks
      (c9St2g.buf.capacity - c9St2g.buf.data.length) = some (c9Tail, []) := by
    rw [show c9St2g.chunks = [c9Tail] from rfl,
      show c9St2g.buf.capacity - c9St2g.buf.data.length = 2048 from by
        rw [show c9St2g.buf.capacity = 4096 from rfl,
          show c9St2g.buf.data.length = (c9HdrChunk ++ c9Fill).length from rfl,
          c9_data2_length]]
    exact streamRead_full (by decide) (by decide)
  conv_lhs => rw [cParseLoop]
  simp only [hg, hrd, show c9St2g.stale = ([] : List Char) from rfl,
    List.drop_nil]
  rfl

/-- Iteration 4: the transport reports connection closed and the loop takes
the connection-close success exit. -/
theorem c9_step4 (n : Nat) :
    cParseLoop demoAlloc (n + 1) c9St3 =
      some (.ok (cAssignBodyClose c9St3)) := by
  have hg : cGrow demoAlloc c9St3 = .ok c9St3 := by
    unfold cGrow
    rw [if_neg (by
      rw [show c9St3.buf.data.length =
          ((c9HdrChunk ++ c9Fill) ++ c9Tail).length from rfl, c9_data3_length]
      decide)]
  have hrd : streamRead c9St3.chunks
      (c9St3.buf.capacity - c9St3.buf.data.length) = none := by
    rw [show c9St3.chunks = ([] : List (List Char)) from rfl]
    rfl
  conv_lhs => rw [cParseLoop]
  simp only [hg, hrd]
  rfl

/-- The whole C9 safe-mode parse, symbolically: four loop iterations end in
the connection-close exit from the relocated buffer. -/
theorem c9_parse_run :
    parse_response_unsafe demoAlloc 0 ⟨0, [], 0⟩ c9Chunks
        { zeroCResponse with content_length := 0 } =
      some (.ok (cAssignBodyClose c9St3)) := by
  have hrun : ∀ n, cParseLoop demoAlloc (n + 4) c9St0 =
      some (.ok (cAssignBodyClose c9St3)) := by
    intro n
    rw [show n + 4 = (n + 3) + 1 from rfl, c9_step1,
      show n + 3 = (n + 2) + 1 from rfl, c9_step2,
      show n + 2 = (n + 1) + 1 from rfl, c9_step3]
    exact c9_step4 n
  have hfuel : cFuelFor c9Chunks = 2053 + 4 := by
    have hm : chunksMeasure c9Chunks = 2055 := by
      simp [chunksMeasure, c9Chunks, show c9HdrChunk.length = 25 from rfl,
        c9Fill_length, show c9Tail.length = 4 from rfl]
    unfold cFuelFor
    rw [hm]
  unfold parse_response_unsafe
  rw [hfuel]
  exact hrun 2053

/-- `parse_response_safe` on a successful parse: the typed success, the
response owning the parse buffer, the engine buffer restored, nothing
freed. -/
theorem parse_response_safe_of_ok {alloc : AllocOracle} {idx : Nat}
    {origBuf : CBuffer} {chunks : List (List Char)} {res0 : CResponse}
    {stOk : CParseState}
    (h : parse_response_unsafe alloc idx ⟨0, [], 0⟩ chunks res0 =
      some (.ok stOk)) :
    parse_response_safe alloc idx origBuf chunks res0 =
      some { err := errNone
             res := { stOk.res with owned_buffer := some stOk.buf.base }
             engineBuf := origBuf, freed := [] } := by
  unfold parse_response_safe
  rw [h]

/-- C9: refuted on the code — in safe-owning mode a no-`Content-Length`
response that outgrows the 2048-byte swapped-in parse buffer triggers the
un-rebased growth realloc, so the returned response's status-message and
header views (`views_base = 4096`) point into the earlier parse allocation
that `realloc` freed when it moved the store to 8192 — they do not reside
in the owned buffer the response is handed (`_owned_buffer = 8192`), and
they do not outlive anything.  The engine's own buffer is restored and the
body does land in the owned storage (`body = 8192 + 25`), but the claim's
"message, headers, and body reside in independent storage" is false. -/
theorem c9_safe_mode_dangling_views_code_bug :
    cPerformSafe demoAlloc 0 ⟨600, [], 2048⟩ c9Chunks emptyCRequest
        .copyWrite zeroCResponse =
      some { err := errNone
             res := { status_code := 200, status_message := ("OK").toList
                      headers := [(("A").toList, ("b").toList)]
                      views_base := 4096, body_addr := 8217, body_len := 2027
                      content_length := 0, owned_buffer := some 8192 }
             engineBuf := c9ReqBuf, freed := [] } ∧
    (4096 : Int) ≠ 8192 := by
  refine ⟨?_, by decide⟩
  unfold cPerformSafe
  rw [show http1_io_segments demoAlloc 0 ⟨600, [], 2048⟩ emptyCRequest
      .copyWrite = .ok ([c9ReqBuf.data], c9ReqBuf, 0) from rfl]
  show parse_response_safe demoAlloc 0 c9ReqBuf c9Chunks
      { zeroCResponse with content_length := 0 } = _
  rw [parse_response_safe_of_ok c9_parse_run]
  simp only [cAssignBodyClose, c9St3, c9St1, c9Res1]
  rw [c9_data3_length]
  rfl

end HttpClientModel
